import Mathlib

/-!
Verification development for the lyst-backend list-management service.

The definitions below are a shallow embedding of the Mongoose/NestJS
services in `src/list/list.service.ts`, `src/list/sharing.service.ts` and
`src/list/category.service.ts`, over the schemas in
`src/list/schemas/*.schema.ts`.  Timestamps are modelled as `Nat`, Mongo
object ids as `Nat` drawn from a per-store counter, and the document
store as plain Lean lists.  Mongoose single-document operations
(`findOne`, `findByIdAndUpdate`, `findOneAndUpdate`, `deleteOne`) act on
the FIRST matching document, `deleteMany`/`find` on all matches, and
`Model.create`/`save` validates the schema's `required` fields before
inserting — for String paths the required validator also rejects the
empty string.  The schemas use Mongoose's default strict mode, so an
update naming a path the schema does not define is silently stripped:
such writes are modelled as no-ops where they occur.
-/

namespace Lyst

/-- `ArchivedReason` enum from `schemas/list.schema.ts`. -/
inductive ArchivedReason where
  | DELETED
  | EXPIRED
deriving DecidableEq, Repr

/-- `ShareStatus` enum from `schemas/shared-list.schema.ts`. -/
inductive ShareStatus where
  | PENDING
  | ACCEPTED
  | DECLINED
  | EXPIRED
deriving DecidableEq, Repr

/-- `InvitationStatus` enum from `schemas/user-invitation.schema.ts`. -/
inductive InvitationStatus where
  | PENDING
  | ACCEPTED
  | EXPIRED
  | CANCELLED
deriving DecidableEq, Repr

/-- An item embedded in a list (`schemas/item.schema.ts`).  `id` models the
Mongo `_id`; `quantity` and `notes` are optional props. -/
structure Item where
  id : Nat
  name : String
  quantity : Option String
  notes : Option String
  isCompleted : Bool
deriving DecidableEq, Repr

/-- A stored `List` document (`schemas/list.schema.ts`).  The schema marks
`name`, `userId` and `category` as `required`; `category` is `Option` here
because documents are only ever inserted through `listCreate`, which
enforces the `required` validation the way `Model.create` does.
`isShared`/`sharedWith` are NOT paths of the List schema: the
`SharingService` writes that target them are stripped by Mongoose
strict mode, so no modelled operation ever mutates these two fields
(they stay at their creation values, `false`/`[]`, in every reachable
store).  They are kept on the record only so frame properties about
them can be stated. -/
structure ListRec where
  id : Nat
  name : String
  userId : String
  expiryDate : Option Nat
  priority : String
  category : Option String
  color : Option String
  isArchived : Bool
  archivedReason : Option ArchivedReason
  items : List Item
  isShared : Bool
  sharedWith : List String
deriving DecidableEq, Repr

/-- A `ForgottenItem` document (`schemas/forgotten-item.schema.ts`). -/
structure ForgottenItem where
  id : Nat
  name : String
  quantity : Option String
  notes : Option String
  userId : String
  originalListId : Nat
  originalListName : String
  expiryDate : Nat
deriving DecidableEq, Repr

/-- A `Category` document (`schemas/category.schema.ts`). -/
structure Category where
  id : Nat
  name : String
  userId : String
  color : String
  listCount : Nat
  isDefault : Bool
deriving DecidableEq, Repr

/-- A `SharedList` document (`schemas/shared-list.schema.ts`). -/
structure SharedList where
  id : Nat
  listId : Nat
  ownerId : String
  sharedWithId : String
  sharedWithContact : Option String
  status : ShareStatus
  invitationToken : String
  invitationExpiry : Nat
  isActive : Bool
  message : Option String
deriving DecidableEq, Repr

/-- A `UserInvitation` document (`schemas/user-invitation.schema.ts`).
`userId` is the accepting user, set on acceptance. -/
structure UserInvitation where
  id : Nat
  invitationToken : String
  contact : String
  contactType : String
  invitedBy : String
  status : InvitationStatus
  expiresAt : Nat
  userId : Option String
  message : Option String
deriving DecidableEq, Repr

/-- The whole document store: one collection per schema plus a counter
from which fresh `_id`s are drawn. -/
structure DB where
  lists : List ListRec
  forgottenItems : List ForgottenItem
  categories : List Category
  shares : List SharedList
  invitations : List UserInvitation
  nextId : Nat
deriving DecidableEq, Repr

/-- Error taxonomy: `NotFoundException`, `BadRequestException`,
`ConflictException`, and generic `Error` (500). -/
inductive Err where
  | notFound (msg : String)
  | badRequest (msg : String)
  | conflict (msg : String)
  | internal (msg : String)
deriving DecidableEq, Repr

/-- Update the FIRST element satisfying `p`, as Mongo's
`findByIdAndUpdate` / `findOneAndUpdate` update a single document. -/
def updateFirst {α : Type} (p : α → Bool) (f : α → α) : List α → List α
  | [] => []
  | x :: xs => if p x then f x :: xs else x :: updateFirst p f xs

/-! ## ListService (`src/list/list.service.ts`) -/

/-- The guard `list.expiryDate && new Date() > list.expiryDate`. -/
def pastExpiry (now : Nat) (l : ListRec) : Bool :=
  match l.expiryDate with
  | some e => decide (e < now)
  | none => false

/-- The `ForgottenItem` snapshot built from one incomplete item of an
expired list (`handleExpiredList` / `findAll` map). -/
def mkForgotten (l : ListRec) (it : Item) (id : Nat) : ForgottenItem :=
  { id := id
    name := it.name
    quantity := it.quantity
    notes := it.notes
    userId := l.userId
    originalListId := l.id
    originalListName := l.name
    expiryDate := l.expiryDate.getD 0 }

/-- Assign consecutive fresh ids to a batch of documents
(`insertMany`). -/
def assignIds {α : Type} : Nat → List (Nat → α) → List α
  | _, [] => []
  | n, f :: fs => f n :: assignIds (n + 1) fs

/-- `forgottenItemModel.insertMany`: append the batch with fresh ids. -/
def insertForgottenMany (db : DB) (docs : List (Nat → ForgottenItem)) : DB :=
  { db with
    forgottenItems := db.forgottenItems ++ assignIds db.nextId docs
    nextId := db.nextId + docs.length }

/-- The archive write of the sweep:
`findByIdAndUpdate(list._id, { isArchived: true, archivedReason: 'EXPIRED' })`. -/
def archiveExpired (db : DB) (id : Nat) : DB :=
  { db with
    lists := updateFirst (fun l => l.id == id)
      (fun l => { l with isArchived := true,
                         archivedReason := some ArchivedReason.EXPIRED })
      db.lists }

/-- `ListService.handleExpiredList`, acting on a fetched snapshot `l`.
`ListService.findAll` inlines this exact logic per list (its
zero-incomplete `else` branch performs the same archive write, so both
branches reduce to this function). -/
def handleExpiredList (now : Nat) (l : ListRec) (db : DB) : DB :=
  if pastExpiry now l && !l.isArchived then
    let incompleteItems := l.items.filter (fun it => !it.isCompleted)
    let db1 :=
      if incompleteItems.length > 0 then
        insertForgottenMany db (incompleteItems.map (fun it => mkForgotten l it))
      else db
    archiveExpired db1 l.id
  else db

/-- `ListService.findAll`: fetch the owner's non-archived lists, sweep
each fetched snapshot, then re-query and return the still-non-archived
set. -/
def findAll (now : Nat) (userId : String) (db : DB) : List ListRec × DB :=
  let lists := db.lists.filter (fun l => l.userId == userId && !l.isArchived)
  let db1 := lists.foldl (fun d l => handleExpiredList now l d) db
  (db1.lists.filter (fun l => l.userId == userId && !l.isArchived), db1)

/-- `ListService.findOne`: fetch by `(_id, userId)`, sweep the single
list, re-fetch and return it (archived or not). -/
def findOne (now : Nat) (id : Nat) (userId : String) (db : DB) :
    Except Err ListRec × DB :=
  match db.lists.find? (fun l => l.id == id && l.userId == userId) with
  | none => (Except.error (Err.notFound "List not found"), db)
  | some l =>
    let db1 := handleExpiredList now l db
    match db1.lists.find? (fun l2 => l2.id == id && l2.userId == userId) with
    | none => (Except.error (Err.notFound "List not found"), db1)
    | some l2 => (Except.ok l2, db1)

/-- Payload of one item inside a `Model.create` call (no `_id` yet). -/
structure ItemSpec where
  name : String
  quantity : Option String
  notes : Option String
  isCompleted : Bool
deriving DecidableEq, Repr

/-- The document passed to `listModel.create`: every field is optional at
the call site; the schema's `required` validation decides acceptance. -/
structure ListSpec where
  name : Option String
  userId : Option String
  expiryDate : Option Nat
  priority : Option String
  category : Option String
  color : Option String
  items : List ItemSpec
deriving DecidableEq, Repr

/-- Materialize embedded items with consecutive fresh `_id`s. -/
def assignItemIds : Nat → List ItemSpec → List Item
  | _, [] => []
  | n, s :: ss =>
    { id := n, name := s.name, quantity := s.quantity, notes := s.notes,
      isCompleted := s.isCompleted } :: assignItemIds (n + 1) ss

/-- `listModel.create`: runs the schema validation (`name`, `userId` and
`category` are `required` in `schemas/list.schema.ts`), applies the
schema defaults (`priority: 'medium'`, `isArchived: false`,
`archivedReason: null`, `items: []`) and inserts the document.  `none`
models a thrown `ValidationError`. -/
def listCreate (spec : ListSpec) (db : DB) : Option (ListRec × DB) :=
  match spec.name, spec.userId, spec.category with
  | some name, some userId, some category =>
    let items := assignItemIds db.nextId spec.items
    let l : ListRec :=
      { id := db.nextId + spec.items.length
        name := name
        userId := userId
        expiryDate := spec.expiryDate
        priority := spec.priority.getD "medium"
        category := some category
        color := spec.color
        isArchived := false
        archivedReason := none
        items := items
        isShared := false
        sharedWith := [] }
    some (l, { db with lists := db.lists ++ [l],
                       nextId := db.nextId + spec.items.length + 1 })
  | _, _, _ => none

/-- `CreateListDto`: all five fields carry `@IsNotEmpty`. -/
structure CreateListDto where
  name : String
  expiryDate : Nat
  priority : String
  category : String
  color : String
deriving DecidableEq, Repr

/-- `ListService.create`. -/
def create (dto : CreateListDto) (userId : String) (db : DB) :
    Except Err ListRec × DB :=
  match listCreate
      { name := some dto.name
        userId := some userId
        expiryDate := some dto.expiryDate
        priority := some dto.priority
        category := some dto.category
        color := some dto.color
        items := [] } db with
  | some (l, db1) => (Except.ok l, db1)
  | none => (Except.error (Err.internal "Failed to create list"), db)

/-- `Partial<CreateListDto>` as used by `ListService.update`. -/
structure UpdateListDto where
  name : Option String
  expiryDate : Option Nat
  priority : Option String
  category : Option String
  color : Option String
deriving DecidableEq, Repr

/-- The `$set: updateListDto` merge: only present fields overwrite. -/
def applyListUpdate (dto : UpdateListDto) (l : ListRec) : ListRec :=
  { l with
    name := dto.name.getD l.name
    expiryDate := match dto.expiryDate with
                  | some e => some e
                  | none => l.expiryDate
    priority := dto.priority.getD l.priority
    category := match dto.category with
                | some c => some c
                | none => l.category
    color := match dto.color with
             | some c => some c
             | none => l.color }

/-- `ListService.update`. -/
def update (id : Nat) (dto : UpdateListDto) (userId : String) (db : DB) :
    Except Err ListRec × DB :=
  match db.lists.find? (fun l => l.id == id && l.userId == userId) with
  | none => (Except.error (Err.notFound "List not found"), db)
  | some _ =>
    let db1 := { db with
      lists := updateFirst (fun l => l.id == id && l.userId == userId)
        (applyListUpdate dto) db.lists }
    match db1.lists.find? (fun l => l.id == id && l.userId == userId) with
    | some l2 => (Except.ok l2, db1)
    | none => (Except.error (Err.internal "Failed to update list"), db1)

/-- `ListService.archive`: explicit delete, sets `archivedReason: 'DELETED'`
unconditionally. -/
def archive (id : Nat) (userId : String) (db : DB) :
    Except Err ListRec × DB :=
  match db.lists.find? (fun l => l.id == id && l.userId == userId) with
  | none => (Except.error (Err.notFound "List not found"), db)
  | some _ =>
    let db1 := { db with
      lists := updateFirst (fun l => l.id == id && l.userId == userId)
        (fun l => { l with isArchived := true,
                           archivedReason := some ArchivedReason.DELETED })
        db.lists }
    match db1.lists.find? (fun l => l.id == id && l.userId == userId) with
    | some l2 => (Except.ok l2, db1)
    | none => (Except.error (Err.internal "Failed to archive list"), db1)

/-- `CreateItemDto`. -/
structure CreateItemDto where
  name : String
  quantity : Option String
  notes : Option String
deriving DecidableEq, Repr

/-- `ListService.addItem`: rejects archived lists before the `$push`. -/
def addItem (listId : Nat) (userId : String) (dto : CreateItemDto) (db : DB) :
    Except Err ListRec × DB :=
  match db.lists.find? (fun l => l.id == listId && l.userId == userId) with
  | none => (Except.error (Err.notFound "List not found"), db)
  | some l =>
    if l.isArchived then
      (Except.error (Err.badRequest "Cannot add items to an archived list"), db)
    else
      let newItem : Item :=
        { id := db.nextId, name := dto.name, quantity := dto.quantity,
          notes := dto.notes, isCompleted := false }
      let db1 := { db with
        lists := updateFirst (fun x => x.id == listId && x.userId == userId)
          (fun x => { x with items := x.items ++ [newItem] }) db.lists
        nextId := db.nextId + 1 }
      match db1.lists.find? (fun x => x.id == listId && x.userId == userId) with
      | some l2 => (Except.ok l2, db1)
      | none => (Except.error (Err.internal "Failed to add item"), db1)

/-- `UpdateItemDto`. -/
structure UpdateItemDto where
  name : Option String
  quantity : Option String
  notes : Option String
  isCompleted : Option Bool
deriving DecidableEq, Repr

/-- The positional `$set: { items.$.key: value }` merge on one item. -/
def applyItemUpdate (dto : UpdateItemDto) (it : Item) : Item :=
  { it with
    name := dto.name.getD it.name
    quantity := match dto.quantity with
                | some q => some q
                | none => it.quantity
    notes := match dto.notes with
             | some n => some n
             | none => it.notes
    isCompleted := dto.isCompleted.getD it.isCompleted }

/-- `ListService.updateItem`: `findIndex === -1` precheck, then a
positional update of the first matching array element. -/
def updateItem (listId : Nat) (userId : String) (itemId : Nat)
    (dto : UpdateItemDto) (db : DB) : Except Err ListRec × DB :=
  match db.lists.find? (fun l => l.id == listId && l.userId == userId) with
  | none => (Except.error (Err.notFound "List not found"), db)
  | some l =>
    if (l.items.find? (fun it => it.id == itemId)).isNone then
      (Except.error (Err.notFound "Item not found"), db)
    else
      let db1 := { db with
        lists := updateFirst
          (fun x => x.id == listId && x.userId == userId &&
                    x.items.any (fun it => it.id == itemId))
          (fun x => { x with
            items := updateFirst (fun it => it.id == itemId)
              (applyItemUpdate dto) x.items }) db.lists }
      match db1.lists.find? (fun x => x.id == listId && x.userId == userId) with
      | some l2 => (Except.ok l2, db1)
      | none => (Except.error (Err.internal "Failed to update item"), db1)

/-- `ListService.deleteItem`: `$pull` removes every array element whose
`_id` matches. -/
def deleteItem (listId : Nat) (userId : String) (itemId : Nat) (db : DB) :
    Except Err ListRec × DB :=
  match db.lists.find? (fun l => l.id == listId && l.userId == userId) with
  | none => (Except.error (Err.notFound "List not found"), db)
  | some l =>
    if (l.items.find? (fun it => it.id == itemId)).isNone then
      (Except.error (Err.notFound "Item not found"), db)
    else
      let db1 := { db with
        lists := updateFirst (fun x => x.id == listId && x.userId == userId)
          (fun x => { x with
            items := x.items.filter (fun it => !(it.id == itemId)) }) db.lists }
      match db1.lists.find? (fun x => x.id == listId && x.userId == userId) with
      | some l2 => (Except.ok l2, db1)
      | none => (Except.error (Err.internal "Failed to delete item"), db1)

/-- `ListService.getForgottenItems`: all of the owner's records. -/
def getForgottenItems (userId : String) (db : DB) : List ForgottenItem :=
  db.forgottenItems.filter (fun f => f.userId == userId)

/-- `DismissForgottenItemsDto`: both selectors optional. -/
structure DismissForgottenItemsDto where
  listId : Option Nat
  itemIds : Option (List Nat)
deriving DecidableEq, Repr

/-- `ListService.dismissForgottenItems`: `listId` branch, else non-empty
`itemIds` branch, else `BadRequestException`. -/
def dismissForgottenItems (userId : String) (dto : DismissForgottenItemsDto)
    (db : DB) : Except Err Unit × DB :=
  match dto.listId with
  | some lid =>
    let kept := db.forgottenItems.filter
      (fun f => !(f.userId == userId && f.originalListId == lid))
    (Except.ok (), { db with forgottenItems := kept })
  | none =>
    match dto.itemIds with
    | some ids =>
      if ids.length > 0 then
        let kept := db.forgottenItems.filter
          (fun f => !(f.userId == userId && ids.contains f.id))
        (Except.ok (), { db with forgottenItems := kept })
      else
        (Except.error (Err.badRequest "Either listId or itemIds must be provided"), db)
    | none =>
      (Except.error (Err.badRequest "Either listId or itemIds must be provided"), db)

/-- `ReactivateListDto`. -/
structure ReactivateListDto where
  listId : Nat
  itemIds : Option (List Nat)
deriving DecidableEq, Repr

/-- The forgotten-item query built by `reactivateList`:
`{ userId, originalListId }`, narrowed by `_id ∈ itemIds` only when a
non-empty `itemIds` was supplied. -/
def reactivateQuery (userId : String) (dto : ReactivateListDto)
    (f : ForgottenItem) : Bool :=
  f.userId == userId && f.originalListId == dto.listId &&
    (match dto.itemIds with
     | some ids => if ids.length > 0 then ids.contains f.id else true
     | none => true)

/-- `ListService.reactivateList`: append converted forgotten items,
`$set: { isArchived: false }` (the source does NOT touch
`archivedReason`), then delete the consumed records. -/
def reactivateList (userId : String) (dto : ReactivateListDto) (db : DB) :
    Except Err ListRec × DB :=
  match db.lists.find? (fun l => l.id == dto.listId && l.userId == userId) with
  | none => (Except.error (Err.notFound "List not found"), db)
  | some _ =>
    let forgotten := db.forgottenItems.filter (reactivateQuery userId dto)
    let itemSpecs := forgotten.map (fun f =>
      ({ name := f.name, quantity := f.quantity, notes := f.notes,
         isCompleted := false } : ItemSpec))
    let newItems := assignItemIds db.nextId itemSpecs
    let db1 := { db with
      lists := updateFirst (fun l => l.id == dto.listId && l.userId == userId)
        (fun l => { l with isArchived := false, items := l.items ++ newItems })
        db.lists
      nextId := db.nextId + itemSpecs.length }
    let db2 := { db1 with
      forgottenItems := db1.forgottenItems.filter
        (fun f => !(reactivateQuery userId dto f)) }
    match db2.lists.find? (fun l => l.id == dto.listId && l.userId == userId) with
    | some l2 => (Except.ok l2, db2)
    | none => (Except.error (Err.internal "Failed to reactivate list"), db2)

/-- `MoveToNewListDto`. -/
structure MoveToNewListDto where
  itemIds : List Nat
  newListName : String
deriving DecidableEq, Repr

/-- `ListService.moveToNewList`: fetch the selected forgotten items,
`listModel.create({ name, userId, items })` (note: no `category`, which
the schema marks `required`), then delete the consumed records.  A
`ValidationError` from `create` is caught and rethrown as a generic
`Error` before the delete runs. -/
def moveToNewList (userId : String) (dto : MoveToNewListDto) (db : DB) :
    Except Err ListRec × DB :=
  let forgotten := db.forgottenItems.filter
    (fun f => f.userId == userId && dto.itemIds.contains f.id)
  if forgotten.length == 0 then
    (Except.error (Err.notFound "No forgotten items found"), db)
  else
    match listCreate
        { name := some dto.newListName
          userId := some userId
          expiryDate := none
          priority := none
          category := none
          color := none
          items := forgotten.map (fun f =>
            { name := f.name, quantity := f.quantity, notes := f.notes,
              isCompleted := false }) } db with
    | none => (Except.error (Err.internal "Failed to move items to new list"), db)
    | some (l, db1) =>
      let db2 := { db1 with
        forgottenItems := db1.forgottenItems.filter
          (fun f => !(f.userId == userId && dto.itemIds.contains f.id)) }
      (Except.ok l, db2)

/-! ## SharingService (`src/list/sharing.service.ts`)

`uuidv4()` is modelled by an explicit `freshToken` argument; the
`FRONTEND_URL` config value by an explicit `frontendUrl` argument. -/

/-- `ShareListResponseDto` (without the constant `success`/`message`). -/
structure ShareListResponse where
  shareId : Nat
  invitationToken : String
  sharingLink : String
  shareMessageTemplate : String
deriving DecidableEq, Repr

/-- `createShareResponse`. -/
def createShareResponse (frontendUrl : String) (shareId : Nat)
    (token : String) : ShareListResponse :=
  let sharingLink := frontendUrl ++ "/shared/" ++ token
  { shareId := shareId
    invitationToken := token
    sharingLink := sharingLink
    shareMessageTemplate := "Check out this list: " ++ sharingLink }

/-- 30 days in milliseconds: the invitation lifetime. -/
def invitationLifetime : Nat := 30 * 24 * 60 * 60 * 1000

/-- `SharingService.createUserInvitation`: the document built and saved
for a new share (fresh token passed explicitly, `_id` drawn from the
store's counter; the insertion itself happens in `shareList`). -/
def createUserInvitation (message : Option String) (ownerId : String)
    (now : Nat) (freshToken : String) (db : DB) : UserInvitation :=
  { id := db.nextId
    invitationToken := freshToken
    contact := ""
    contactType := "PHONE"
    invitedBy := ownerId
    status := InvitationStatus.PENDING
    expiresAt := now + invitationLifetime
    userId := none
    message := message }

/-- `SharingService.createSharedList`: the paired share document
(`sharedWithId` holds the invitation token until acceptance). -/
def createSharedList (listId : Nat) (message : Option String)
    (ownerId : String) (invitation : UserInvitation) (db : DB) : SharedList :=
  { id := db.nextId + 1
    listId := listId
    ownerId := ownerId
    sharedWithId := invitation.invitationToken
    sharedWithContact := none
    status := ShareStatus.PENDING
    invitationToken := invitation.invitationToken
    invitationExpiry := invitation.expiresAt
    isActive := true
    message := message }

/-- Save-time validation of the UserInvitation schema's `required`
String paths (`contact`, `contactType`, `invitedBy`,
`invitationToken`): Mongoose's required validator for String paths
rejects the empty string.  `contact` is checked first because
`createUserInvitation` always saves `contact: ''`, which fails. -/
def userInvitationValid (inv : UserInvitation) : Bool :=
  !(inv.contact == "") && !(inv.contactType == "") &&
    !(inv.invitedBy == "") && !(inv.invitationToken == "")

/-- `invitation.save()`: validate against the schema, then insert.
`none` models the thrown `ValidationError`. -/
def userInvitationSave (inv : UserInvitation) (db : DB) : Option DB :=
  if userInvitationValid inv then
    some { db with invitations := db.invitations ++ [inv] }
  else none

/-- Save-time validation of the SharedList schema's `required` String
paths (`ownerId`, `sharedWithId`). -/
def sharedListValid (s : SharedList) : Bool :=
  !(s.ownerId == "") && !(s.sharedWithId == "")

/-- `share.save()`: validate against the schema, then insert. -/
def sharedListSave (s : SharedList) (db : DB) : Option DB :=
  if sharedListValid s then
    some { db with shares := db.shares ++ [s] }
  else none

/-- `SharingService.shareList`: ownership check, then either update the
existing active share's message in place and answer with the existing
invitation's token, or mint a new `UserInvitation` + `SharedList` pair.
The fresh branch first awaits `createUserInvitation`, whose
`invitation.save()` carries `contact: ''` and therefore always throws a
ValidationError (`contact` is a required String path); `shareList` has
no try/catch, so the error escapes with nothing written.  The later
`findByIdAndUpdate(listId, { isShared: true })` writes a path the List
schema does not define, which Mongoose strict mode strips. -/
def shareList (listId : Nat) (message : Option String) (ownerId : String)
    (now : Nat) (freshToken : String) (frontendUrl : String) (db : DB) :
    Except Err ShareListResponse × DB :=
  match db.lists.find? (fun l => l.id == listId) with
  | none => (Except.error (Err.notFound "List not found"), db)
  | some list =>
    if list.userId == ownerId then
      match db.shares.find?
          (fun s => s.listId == listId && s.ownerId == ownerId && s.isActive) with
      | some existingShare =>
        let db1 := { db with
          shares := updateFirst (fun s => s.id == existingShare.id)
            (fun s => { s with message := message }) db.shares }
        match db1.invitations.find?
            (fun i => i.invitationToken == existingShare.invitationToken) with
        | none => (Except.error (Err.internal "TypeError: invitation is null"), db1)
        | some invitation =>
          (Except.ok (createShareResponse frontendUrl existingShare.id
            invitation.invitationToken), db1)
      | none =>
        let invitation := createUserInvitation message ownerId now freshToken db
        match userInvitationSave invitation db with
        | none =>
          (Except.error (Err.internal
            "ValidationError: Path `contact` is required."), db)
        | some db1 =>
          let share := createSharedList listId message ownerId invitation db
          match sharedListSave share db1 with
          | none =>
            (Except.error (Err.internal
              "ValidationError: SharedList validation failed"), db1)
          | some db2 =>
            -- `findByIdAndUpdate(listId, { isShared: true })` is stripped
            -- by strict mode: the list document is left unchanged
            (Except.ok (createShareResponse frontendUrl share.id
              invitation.invitationToken),
             { db2 with nextId := db.nextId + 2 })
    else (Except.error (Err.badRequest "You can only share your own lists"), db)

/-- `AcceptShareResponseDto` payload (the `listId`). -/
structure AcceptShareResponse where
  listId : Nat
deriving DecidableEq, Repr

/-- `SharingService.acceptShare`: resolve a PENDING unexpired invitation
and its paired PENDING share, then mark both ACCEPTED (recording the
accepting user; the share's `sharedWithId` becomes the user id).  The
final `findByIdAndUpdate(share.listId, { $addToSet: { sharedWith:
userId } })` writes a path the List schema does not define, so Mongoose
strict mode strips it: the list document is left unchanged.
`sharedWithContact` is never written. -/
def acceptShare (token : String) (userId : String) (now : Nat) (db : DB) :
    Except Err AcceptShareResponse × DB :=
  match db.invitations.find?
      (fun i => i.invitationToken == token &&
                i.status == InvitationStatus.PENDING &&
                decide (now < i.expiresAt)) with
  | none => (Except.error (Err.notFound "Invalid or expired invitation token"), db)
  | some invitation =>
    match db.shares.find?
        (fun s => s.invitationToken == token &&
                  s.status == ShareStatus.PENDING) with
    | none => (Except.error (Err.notFound "Share not found for this invitation"), db)
    | some share =>
      let db1 := { db with
        invitations := updateFirst (fun i => i.id == invitation.id)
          (fun i => { i with status := InvitationStatus.ACCEPTED,
                             userId := some userId }) db.invitations }
      let db2 := { db1 with
        shares := updateFirst (fun s => s.id == share.id)
          (fun s => { s with status := ShareStatus.ACCEPTED,
                             sharedWithId := userId }) db1.shares }
      -- `$addToSet: { sharedWith: userId }` on the list is stripped by
      -- strict mode (no such schema path): no list is modified
      (Except.ok { listId := share.listId }, db2)

/-- `SharingService.revokeShare`: ownership check, deactivate the share
(status EXPIRED).  The `$pull` of `sharedWithContact` from the list's
`sharedWith` (attempted only when that never-written field is truthy)
and the wholesale `{ isShared: false, sharedWith: [] }` clear (when the
remaining-active count is zero) both write paths the List schema does
not define, so Mongoose strict mode strips them: no list document is
ever modified. -/
def revokeShare (shareId : Nat) (userId : String) (db : DB) :
    Except Err Unit × DB :=
  match db.shares.find? (fun s => s.id == shareId) with
  | none => (Except.error (Err.notFound "Share not found"), db)
  | some share =>
    if share.ownerId == userId then
      let db1 := { db with
        shares := updateFirst (fun s => s.id == shareId)
          (fun s => { s with isActive := false,
                             status := ShareStatus.EXPIRED }) db.shares }
      -- sharing.service.ts:225-229 ($pull) and :232-242 (countDocuments
      -- guarding the clear) target non-schema paths: stripped, no-ops
      (Except.ok (), db1)
    else (Except.error (Err.badRequest "You can only revoke your own shares"), db)

/-! ## CategoryService (`src/list/category.service.ts`) -/

/-- `CategoryService.getCategoryById`. -/
def getCategoryById (userId : String) (categoryId : Nat) (db : DB) :
    Except Err Category :=
  match db.categories.find? (fun c => c.id == categoryId && c.userId == userId) with
  | none => Except.error (Err.notFound "Category not found")
  | some c => Except.ok c

/-- `CategoryService.deleteCategory`: count the owner's lists whose
`category` equals the category's name; `ConflictException` when any
exist, otherwise `deleteOne` the record. -/
def deleteCategory (userId : String) (categoryId : Nat) (db : DB) :
    Except Err Unit × DB :=
  match getCategoryById userId categoryId db with
  | Except.error e => (Except.error e, db)
  | Except.ok category =>
    let listCount := (db.lists.filter
      (fun l => l.userId == userId && l.category == some category.name)).length
    if listCount > 0 then
      (Except.error (Err.conflict "Cannot delete category: it is in use"), db)
    else
      let kept := db.categories.eraseP
        (fun c => c.id == categoryId && c.userId == userId)
      (Except.ok (), { db with categories := kept })

/-! ## Invariant predicates -/

/-- The spec's list-archive invariant, forward direction: an archived
list always carries a reason. -/
def archReasonInv (db : DB) : Prop :=
  ∀ l ∈ db.lists, l.isArchived = true → l.archivedReason ≠ none

/-- The spec's claimed two-sided archive invariant: `archivedReason` is
non-null iff `isArchived` is true. -/
def archReasonIff (db : DB) : Prop :=
  ∀ l ∈ db.lists, (l.archivedReason ≠ none ↔ l.isArchived = true)

/-- Marker for an active share of a given `(list, owner)` pair. -/
def activeShareFor (listId : Nat) (ownerId : String) (s : SharedList) : Bool :=
  s.listId == listId && s.ownerId == ownerId && s.isActive

/-- The spec's sharing invariant: at most one active `SharedList` per
`(list, owner)` pair. -/
def atMostOneActive (db : DB) : Prop :=
  ∀ lid own, (db.shares.filter (activeShareFor lid own)).length ≤ 1

/-- Every share's token resolves to some stored invitation (re-share
reads the invitation back by token). -/
def shareTokenInv (db : DB) : Prop :=
  ∀ s ∈ db.shares, ∃ i ∈ db.invitations, i.invitationToken = s.invitationToken

/-! ## Concrete fixtures used by the witness theorems -/

/-- An incomplete item. -/
def itemMilk : Item :=
  { id := 10, name := "Milk", quantity := some "1 liter", notes := none,
    isCompleted := false }

/-- A completed item. -/
def itemBread : Item :=
  { id := 11, name := "Bread", quantity := none, notes := some "rye",
    isCompleted := true }

/-- A non-archived list with a past expiry date (expiry 5 < now 10). -/
def expiredList : ListRec :=
  { id := 1, name := "Groceries", userId := "u1", expiryDate := some 5,
    priority := "medium", category := some "Shopping", color := none,
    isArchived := false, archivedReason := none,
    items := [itemMilk, itemBread], isShared := false, sharedWith := [] }

/-- A store holding only `expiredList`. -/
def baseDB : DB :=
  { lists := [expiredList], forgottenItems := [], categories := [],
    shares := [], invitations := [], nextId := 100 }

/-- An archived list (explicitly deleted). -/
def archivedList : ListRec :=
  { id := 2, name := "Old", userId := "u1", expiryDate := none,
    priority := "medium", category := some "Shopping", color := none,
    isArchived := true, archivedReason := some ArchivedReason.DELETED,
    items := [], isShared := false, sharedWith := [] }

/-- A store holding only `archivedList`. -/
def archivedDB : DB :=
  { lists := [archivedList], forgottenItems := [], categories := [],
    shares := [], invitations := [], nextId := 100 }

/-- A forgotten item owned by "u1", originating from list 1. -/
def forgottenMilk : ForgottenItem :=
  { id := 50, name := "Milk", quantity := some "1 liter", notes := none,
    userId := "u1", originalListId := 1, originalListName := "Groceries",
    expiryDate := 5 }

/-- A second forgotten item of the same owner from another list. -/
def forgottenEggs : ForgottenItem :=
  { id := 51, name := "Eggs", quantity := none, notes := some "dozen",
    userId := "u1", originalListId := 7, originalListName := "Breakfast",
    expiryDate := 6 }

/-- A forgotten item belonging to a different owner. -/
def forgottenOther : ForgottenItem :=
  { id := 52, name := "Nails", quantity := none, notes := none,
    userId := "u9", originalListId := 1, originalListName := "Hardware",
    expiryDate := 5 }

/-- A store holding the three forgotten items and no lists. -/
def forgottenDB : DB :=
  { lists := [], forgottenItems := [forgottenMilk, forgottenEggs, forgottenOther],
    categories := [], shares := [], invitations := [], nextId := 100 }

/-- A pending, unexpired invitation with token "tok". -/
def pendingInvitation : UserInvitation :=
  { id := 30, invitationToken := "tok", contact := "", contactType := "PHONE",
    invitedBy := "u1", status := InvitationStatus.PENDING, expiresAt := 100,
    userId := none, message := none }

/-- The share paired with `pendingInvitation`, targeting list 1. -/
def pendingShare : SharedList :=
  { id := 40, listId := 1, ownerId := "u1", sharedWithId := "tok",
    sharedWithContact := none, status := ShareStatus.PENDING,
    invitationToken := "tok", invitationExpiry := 100, isActive := true,
    message := none }

/-- A store with one list, one pending share and its invitation. -/
def sharingDB : DB :=
  { lists := [expiredList], forgottenItems := [], categories := [],
    shares := [pendingShare], invitations := [pendingInvitation],
    nextId := 100 }

/-- A category in use by `expiredList` (same owner, same name). -/
def catShopping : Category :=
  { id := 60, name := "Shopping", userId := "u1", color := "#F00",
    listCount := 1, isDefault := false }

/-- A category no list references. -/
def catWork : Category :=
  { id := 61, name := "Work", userId := "u1", color := "#0F0",
    listCount := 0, isDefault := false }

/-- A store with one list (category "Shopping") and two categories. -/
def categoryDB : DB :=
  { lists := [expiredList], forgottenItems := [],
    categories := [catShopping, catWork], shares := [], invitations := [],
    nextId := 100 }

/-- An accepted, active share of list 1 whose `sharedWithContact` was
never populated (as `acceptShare` behaves). -/
def acceptedShare : SharedList :=
  { id := 41, listId := 1, ownerId := "u1", sharedWithId := "u2",
    sharedWithContact := none, status := ShareStatus.ACCEPTED,
    invitationToken := "tok", invitationExpiry := 100, isActive := true,
    message := none }

/-- A second still-active share of the same list. -/
def secondShare : SharedList :=
  { id := 42, listId := 1, ownerId := "u1", sharedWithId := "tok2",
    sharedWithContact := none, status := ShareStatus.PENDING,
    invitationToken := "tok2", invitationExpiry := 100, isActive := true,
    message := none }

/-- List 1 with the accepting recipient "u2" in its shared-with set. -/
def listWithRecipient : ListRec :=
  { id := 1, name := "Groceries", userId := "u1", expiryDate := none,
    priority := "medium", category := some "Shopping", color := none,
    isArchived := false, archivedReason := none, items := [],
    isShared := true, sharedWith := ["u2"] }

/-- A store with the shared list and its two active shares. -/
def revokeDB : DB :=
  { lists := [listWithRecipient], forgottenItems := [], categories := [],
    shares := [acceptedShare, secondShare], invitations := [],
    nextId := 100 }

/-- A store with one list, exactly one active share for it and the
share's invitation: the re-share branch of `shareList` applies. -/
def reshareDB : DB :=
  { lists := [listWithRecipient], forgottenItems := [], categories := [],
    shares := [acceptedShare], invitations := [pendingInvitation],
    nextId := 100 }

/-! ## General lemmas about the store primitives -/

theorem updateFirst_eq_of_forall_not {α : Type} {p : α → Bool} {f : α → α} :
    ∀ {xs : List α}, (∀ x ∈ xs, p x = false) → updateFirst p f xs = xs := by
  intro xs
  induction xs with
  | nil => intro _; rfl
  | cons y ys ih =>
    intro h
    have hy := h y (List.mem_cons_self y ys)
    simp [updateFirst, hy]
    exact ih (fun x hx => h x (List.mem_cons_of_mem y hx))

theorem find?_eq_some_split {α : Type} {p : α → Bool} :
    ∀ {xs : List α} {x : α}, xs.find? p = some x →
      ∃ as bs, xs = as ++ x :: bs ∧ (∀ a ∈ as, p a = false) ∧ p x = true := by
  intro xs
  induction xs with
  | nil => intro x h; simp [List.find?] at h
  | cons y ys ih =>
    intro x h
    cases hp : p y with
    | true =>
      rw [List.find?_cons_of_pos _ hp] at h
      cases h
      exact ⟨[], ys, rfl, by intro a ha; simp at ha, hp⟩
    | false =>
      rw [List.find?_cons_of_neg _ (by simp [hp])] at h
      obtain ⟨as, bs, hsplit, has, hx⟩ := ih h
      refine ⟨y :: as, bs, by rw [hsplit]; rfl, ?_, hx⟩
      intro a ha
      rcases List.mem_cons.mp ha with rfl | ha2
      · exact hp
      · exact has a ha2

theorem updateFirst_append_cons {α : Type} {p : α → Bool} (f : α → α) :
    ∀ {as : List α} (x : α) (bs : List α), (∀ a ∈ as, p a = false) →
      p x = true → updateFirst p f (as ++ x :: bs) = as ++ f x :: bs := by
  intro as
  induction as with
  | nil => intro x bs _ hx; simp [updateFirst, hx]
  | cons a as ih =>
    intro x bs ha hx
    have ha0 := ha a (List.mem_cons_self a as)
    simp only [List.cons_append, updateFirst, ha0]
    simp only [Bool.false_eq_true, if_false, List.cons.injEq, true_and]
    exact ih x bs (fun a2 h2 => ha a2 (List.mem_cons_of_mem a h2)) hx

theorem find?_append_cons {α : Type} {p : α → Bool} :
    ∀ {as : List α} {x : α} (bs : List α), (∀ a ∈ as, p a = false) →
      p x = true → (as ++ x :: bs).find? p = some x := by
  intro as
  induction as with
  | nil => intro x bs _ hx; simp [List.find?_cons_of_pos _ hx]
  | cons a as ih =>
    intro x bs ha hx
    have ha0 := ha a (List.mem_cons_self a as)
    rw [List.cons_append, List.find?_cons_of_neg _ (by simp [ha0])]
    exact ih bs (fun a2 h2 => ha a2 (List.mem_cons_of_mem a h2)) hx

theorem find?_updateFirst_strong {α : Type} {p q : α → Bool} {f : α → α}
    {xs : List α} {x : α} (h : xs.find? p = some x)
    (himp : ∀ y, q y = true → p y = true) (hfx : q (f x) = true) :
    (updateFirst p f xs).find? q = some (f x) := by
  obtain ⟨as, bs, rfl, has, hx⟩ := find?_eq_some_split h
  rw [updateFirst_append_cons f x bs has hx]
  refine find?_append_cons bs ?_ hfx
  intro a ha
  cases hqa : q a with
  | true =>
    have h2 := has a ha
    rw [himp a hqa] at h2
    exact absurd h2 (by simp)
  | false => rfl

theorem find?_updateFirst_of_disjoint {α : Type} (p q : α → Bool) (f : α → α)
    (h1 : ∀ y, p y = true → q y = false)
    (h2 : ∀ y, p y = true → q (f y) = false) :
    ∀ (xs : List α), (updateFirst p f xs).find? q = xs.find? q := by
  intro xs
  induction xs with
  | nil => rfl
  | cons y ys ih =>
    cases hp : p y with
    | true =>
      simp only [updateFirst, hp, if_true]
      rw [List.find?_cons_of_neg _ (by simp [h2 y hp]),
          List.find?_cons_of_neg _ (by simp [h1 y hp])]
    | false =>
      simp only [updateFirst, hp, Bool.false_eq_true, if_false]
      cases hq : q y with
      | true =>
        rw [List.find?_cons_of_pos _ hq, List.find?_cons_of_pos _ hq]
      | false =>
        rw [List.find?_cons_of_neg _ (by simp [hq]),
            List.find?_cons_of_neg _ (by simp [hq])]
        exact ih

theorem mem_updateFirst_of_not_pred {α : Type} {p : α → Bool} {f : α → α}
    {y : α} (hpy : p y = false) :
    ∀ {xs : List α}, y ∈ xs → y ∈ updateFirst p f xs := by
  intro xs
  induction xs with
  | nil => intro h; exact absurd h (List.not_mem_nil y)
  | cons a as ih =>
    intro h
    cases hp : p a with
    | true =>
      simp only [updateFirst, hp, if_true]
      rcases List.mem_cons.mp h with rfl | h2
      · rw [hp] at hpy; exact absurd hpy (by simp)
      · exact List.mem_cons_of_mem _ h2
    | false =>
      simp only [updateFirst, hp, Bool.false_eq_true, if_false]
      rcases List.mem_cons.mp h with rfl | h2
      · exact List.mem_cons_self y _
      · exact List.mem_cons_of_mem _ (ih h2)

theorem mem_updateFirst_elim {α : Type} {p : α → Bool} {f : α → α} {y : α} :
    ∀ {xs : List α}, y ∈ updateFirst p f xs →
      y ∈ xs ∨ ∃ x ∈ xs, p x = true ∧ y = f x := by
  intro xs
  induction xs with
  | nil => intro h; exact absurd h (List.not_mem_nil y)
  | cons a as ih =>
    intro h
    cases hp : p a with
    | true =>
      simp only [updateFirst, hp, if_true] at h
      rcases List.mem_cons.mp h with rfl | h2
      · exact Or.inr ⟨a, List.mem_cons_self a as, hp, rfl⟩
      · exact Or.inl (List.mem_cons_of_mem a h2)
    | false =>
      simp only [updateFirst, hp, Bool.false_eq_true, if_false] at h
      rcases List.mem_cons.mp h with rfl | h2
      · exact Or.inl (List.mem_cons_self y as)
      · rcases ih h2 with h3 | ⟨x, hx, hpx, hyx⟩
        · exact Or.inl (List.mem_cons_of_mem a h3)
        · exact Or.inr ⟨x, List.mem_cons_of_mem a hx, hpx, hyx⟩

theorem length_updateFirst {α : Type} {p : α → Bool} {f : α → α} :
    ∀ (xs : List α), (updateFirst p f xs).length = xs.length := by
  intro xs
  induction xs with
  | nil => rfl
  | cons a as ih =>
    cases hp : p a with
    | true => simp [updateFirst, hp]
    | false => simp [updateFirst, hp, ih]

theorem find?_key_of_nodup {α β : Type} (key : α → β) {xs : List α} {x : α}
    {q : α → Bool} (hnd : (xs.map key).Nodup) (hx : x ∈ xs)
    (hqx : q x = true) (hq : ∀ y, q y = true → key y = key x) :
    xs.find? q = some x := by
  cases h : xs.find? q with
  | none =>
    have := List.find?_eq_none.mp h x hx
    rw [hqx] at this
    exact absurd rfl this
  | some y =>
    have hy : y ∈ xs := List.mem_of_find?_eq_some h
    have hqy : q y = true := List.find?_some h
    have : y = x := List.inj_on_of_nodup_map hnd hy hx (hq y hqy)
    rw [this]

theorem mem_assignIds {α : Type} {g : Nat → α} :
    ∀ {docs : List (Nat → α)} (m : Nat), g ∈ docs →
      ∃ n, g n ∈ assignIds m docs := by
  intro docs
  induction docs with
  | nil => intro m h; exact absurd h (List.not_mem_nil g)
  | cons d ds ih =>
    intro m h
    rcases List.mem_cons.mp h with rfl | h2
    · exact ⟨m, List.mem_cons_self _ _⟩
    · obtain ⟨n, hn⟩ := ih (m + 1) h2
      exact ⟨n, List.mem_cons_of_mem _ hn⟩

theorem mem_assignIds_elim {α : Type} {y : α} :
    ∀ {docs : List (Nat → α)} {m : Nat}, y ∈ assignIds m docs →
      ∃ g ∈ docs, ∃ n, y = g n := by
  intro docs
  induction docs with
  | nil => intro m h; exact absurd h (List.not_mem_nil y)
  | cons d ds ih =>
    intro m h
    rcases List.mem_cons.mp h with rfl | h2
    · exact ⟨d, List.mem_cons_self d ds, m, rfl⟩
    · obtain ⟨g, hg, n, hn⟩ := ih h2
      exact ⟨g, List.mem_cons_of_mem d hg, n, hn⟩

/-! ## Lemmas about the expiry sweep -/

theorem pastExpiry_true {now e : Nat} {l : ListRec} (he : l.expiryDate = some e)
    (hpast : e < now) : pastExpiry now l = true := by
  simp [pastExpiry, he, hpast]

/-- Sweeping a snapshot with a different id changes neither the list
record indexed by `i` nor the forgotten items originating from `i`. -/
theorem handleExpired_preserves_other (now : Nat) (a : ListRec) (i : Nat)
    (hne : a.id ≠ i) (d : DB) :
    ((handleExpiredList now a d).lists.find? (fun x => x.id == i)
        = d.lists.find? (fun x => x.id == i)) ∧
    ((handleExpiredList now a d).forgottenItems.filter
        (fun f => f.originalListId == i)
      = d.forgottenItems.filter (fun f => f.originalListId == i)) := by
  unfold handleExpiredList
  cases hg : (pastExpiry now a && !a.isArchived) with
  | false => simp
  | true =>
    simp only [if_true]
    constructor
    · show ((archiveExpired _ a.id).lists.find? _) = _
      unfold archiveExpired
      have h := find?_updateFirst_of_disjoint
        (fun x : ListRec => x.id == a.id)
        (fun x : ListRec => x.id == i)
        (fun l : ListRec =>
          { l with isArchived := true,
                   archivedReason := some ArchivedReason.EXPIRED })
        (fun y hy => by
          have : y.id = a.id := by simpa using hy
          simp [this, hne])
        (fun y hy => by
          have : y.id = a.id := by simpa using hy
          simp [this, hne])
      rw [h]
      split <;> rfl
    · show ((archiveExpired _ a.id).forgottenItems.filter _) = _
      unfold archiveExpired
      simp only []
      split
      · rw [show (insertForgottenMany d _).forgottenItems
              = d.forgottenItems ++ assignIds d.nextId
                  ((a.items.filter (fun it => !it.isCompleted)).map
                    (fun it => mkForgotten a it)) from rfl]
        rw [List.filter_append]
        have hnil : (assignIds d.nextId
            ((a.items.filter (fun it => !it.isCompleted)).map
              (fun it => mkForgotten a it))).filter
              (fun f => f.originalListId == i) = [] := by
          refine List.filter_eq_nil_iff.mpr ?_
          intro y hy
          obtain ⟨g, hg2, n, rfl⟩ := mem_assignIds_elim hy
          obtain ⟨it, _, rfl⟩ := List.mem_map.mp hg2
          simp [mkForgotten, hne]
        rw [hnil, List.append_nil]
      · rfl

/-- Folding the sweep over snapshots whose ids all differ from `i`
preserves the `i`-indexed list record and the `i`-originated forgotten
items. -/
theorem sweep_foldl_preserves (now : Nat) (i : Nat) :
    ∀ (as : List ListRec) (d : DB), (∀ a ∈ as, a.id ≠ i) →
      ((as.foldl (fun x l => handleExpiredList now l x) d).lists.find?
          (fun x => x.id == i)
        = d.lists.find? (fun x => x.id == i)) ∧
      ((as.foldl (fun x l => handleExpiredList now l x) d).forgottenItems.filter
          (fun f => f.originalListId == i)
        = d.forgottenItems.filter (fun f => f.originalListId == i)) := by
  intro as
  induction as with
  | nil => intro d _; exact ⟨rfl, rfl⟩
  | cons a as ih =>
    intro d hne
    have ha := hne a (List.mem_cons_self a as)
    have hstep := handleExpired_preserves_other now a i ha d
    have hrest := ih (handleExpiredList now a d)
      (fun b hb => hne b (List.mem_cons_of_mem a hb))
    exact ⟨hrest.1.trans hstep.1, hrest.2.trans hstep.2⟩

/-- Sweeping an expired, non-archived snapshot `l` archives the stored
record (reason EXPIRED): the re-fetch through any predicate `q` that
selects only id `l.id` finds the archived version. -/
theorem handleExpired_self_lists (now : Nat) (l : ListRec) (e : Nat) (d : DB)
    (he : l.expiryDate = some e) (hpast : e < now) (ha : l.isArchived = false)
    (hfind : d.lists.find? (fun x => x.id == l.id) = some l)
    (q : ListRec → Bool) (hq : ∀ y, q y = true → (y.id == l.id) = true)
    (hqa : q { l with isArchived := true,
                      archivedReason := some ArchivedReason.EXPIRED } = true) :
    (handleExpiredList now l d).lists.find? q
      = some { l with isArchived := true,
                      archivedReason := some ArchivedReason.EXPIRED } := by
  unfold handleExpiredList
  rw [pastExpiry_true he hpast]
  rw [ha]
  simp only [Bool.not_false, Bool.and_self, if_true]
  show ((archiveExpired _ l.id).lists.find? q) = _
  unfold archiveExpired
  have hfind2 : (if (l.items.filter (fun it => !it.isCompleted)).length > 0 then
        insertForgottenMany d ((l.items.filter (fun it => !it.isCompleted)).map
          (fun it => mkForgotten l it))
      else d).lists.find? (fun x => x.id == l.id) = some l := by
    split <;> exact hfind
  exact find?_updateFirst_strong hfind2 hq hqa

/-- Sweeping an expired, non-archived snapshot `l` appends exactly the
forgotten-item snapshots of `l`'s incomplete items. -/
theorem handleExpired_self_forgotten (now : Nat) (l : ListRec) (e : Nat)
    (d : DB) (he : l.expiryDate = some e) (hpast : e < now)
    (ha : l.isArchived = false) :
    (handleExpiredList now l d).forgottenItems
      = d.forgottenItems ++ assignIds d.nextId
          ((l.items.filter (fun it => !it.isCompleted)).map
            (fun it => mkForgotten l it)) := by
  unfold handleExpiredList
  rw [pastExpiry_true he hpast]
  rw [ha]
  simp only [Bool.not_false, Bool.and_self, if_true]
  show ((archiveExpired _ l.id).forgottenItems) = _
  unfold archiveExpired
  simp only []
  split
  · rfl
  · next hlen =>
    have : l.items.filter (fun it => !it.isCompleted) = [] := by
      cases hfil : l.items.filter (fun it => !it.isCompleted) with
      | nil => rfl
      | cons x xs => rw [hfil] at hlen; simp at hlen
    rw [this]
    show d.forgottenItems = d.forgottenItems ++ assignIds d.nextId []
    rw [show assignIds d.nextId ([] : List (Nat → ForgottenItem)) = [] from rfl,
        List.append_nil]

theorem lists_find?_id_eq (db : DB) (l : ListRec)
    (hnd : (db.lists.map ListRec.id).Nodup) (hl : l ∈ db.lists) :
    db.lists.find? (fun x => x.id == l.id) = some l :=
  find?_key_of_nodup ListRec.id hnd hl (by simp) (fun y hy => by simpa using hy)

/-- `findAll` archives an owner's expired non-archived list (reason
EXPIRED) and appends exactly the forgotten-item snapshots of its
incomplete items (starting at some fresh id `n0`). -/
theorem findAll_sweeps_expired (now : Nat) (u : String) (db : DB)
    (l : ListRec) (e : Nat) (hnd : (db.lists.map ListRec.id).Nodup)
    (hl : l ∈ db.lists) (hu : l.userId = u) (he : l.expiryDate = some e)
    (hpast : e < now) (ha : l.isArchived = false) :
    ((findAll now u db).snd.lists.find? (fun x => x.id == l.id)
      = some { l with isArchived := true,
                      archivedReason := some ArchivedReason.EXPIRED }) ∧
    ∃ n0, (findAll now u db).snd.forgottenItems.filter
        (fun f => f.originalListId == l.id)
      = db.forgottenItems.filter (fun f => f.originalListId == l.id)
        ++ assignIds n0 ((l.items.filter (fun it => !it.isCompleted)).map
            (fun it => mkForgotten l it)) := by
  have hmemsl : l ∈ db.lists.filter (fun x => x.userId == u && !x.isArchived) := by
    refine List.mem_filter.mpr ⟨hl, ?_⟩
    simp [hu, ha]
  obtain ⟨as, bs, hsplit⟩ := List.append_of_mem hmemsl
  have hsub : List.Sublist
      (db.lists.filter (fun x => x.userId == u && !x.isArchived)) db.lists :=
    List.filter_sublist _
  have hndsl : ((db.lists.filter
      (fun x => x.userId == u && !x.isArchived)).map ListRec.id).Nodup :=
    hnd.sublist (hsub.map ListRec.id)
  rw [hsplit, List.map_append, List.map_cons] at hndsl
  have h3 := List.nodup_append.mp hndsl
  have hasne : ∀ a ∈ as, a.id ≠ l.id := by
    intro a haa heq
    exact h3.2.2 (List.mem_map_of_mem ListRec.id haa)
      (heq ▸ List.mem_cons_self _ _)
  have hbsne : ∀ b ∈ bs, b.id ≠ l.id := by
    intro b hbb heq
    have : ListRec.id l ∈ bs.map ListRec.id :=
      heq ▸ List.mem_map_of_mem ListRec.id hbb
    exact (List.nodup_cons.mp h3.2.1).1 this
  have hpost : (findAll now u db).snd
      = bs.foldl (fun d x => handleExpiredList now x d)
          (handleExpiredList now l
            (as.foldl (fun d x => handleExpiredList now x d) db)) := by
    show (db.lists.filter (fun x => x.userId == u && !x.isArchived)).foldl
        (fun d x => handleExpiredList now x d) db = _
    rw [hsplit, List.foldl_append, List.foldl_cons]
  have hA := sweep_foldl_preserves now l.id as db hasne
  have hfindA : (as.foldl (fun d x => handleExpiredList now x d) db).lists.find?
      (fun x => x.id == l.id) = some l :=
    hA.1.trans (lists_find?_id_eq db l hnd hl)
  set dbA := as.foldl (fun d x => handleExpiredList now x d) db with hdbA
  have hL1 := handleExpired_self_lists now l e dbA he hpast ha hfindA
    (fun x => x.id == l.id) (fun y hy => hy) (by simp)
  have hL2 := handleExpired_self_forgotten now l e dbA he hpast ha
  have hB := sweep_foldl_preserves now l.id bs (handleExpiredList now l dbA) hbsne
  constructor
  · rw [hpost]
    exact hB.1.trans hL1
  · refine ⟨dbA.nextId, ?_⟩
    rw [hpost]
    rw [hB.2, hL2, List.filter_append]
    have hbatch : (assignIds dbA.nextId
        ((l.items.filter (fun it => !it.isCompleted)).map
          (fun it => mkForgotten l it))).filter
          (fun f => f.originalListId == l.id)
        = assignIds dbA.nextId
            ((l.items.filter (fun it => !it.isCompleted)).map
              (fun it => mkForgotten l it)) := by
      refine List.filter_eq_self.mpr ?_
      intro y hy
      obtain ⟨g, hg, n, rfl⟩ := mem_assignIds_elim hy
      obtain ⟨it, _, rfl⟩ := List.mem_map.mp hg
      simp [mkForgotten]
    rw [hbatch, hA.2]

/-- `findOne` on an owner's expired non-archived list returns the
archived (EXPIRED) version and appends exactly the forgotten-item
snapshots of its incomplete items. -/
theorem findOne_sweeps_expired (now : Nat) (u : String) (db : DB)
    (l : ListRec) (e : Nat) (hnd : (db.lists.map ListRec.id).Nodup)
    (hl : l ∈ db.lists) (hu : l.userId = u) (he : l.expiryDate = some e)
    (hpast : e < now) (ha : l.isArchived = false) :
    ((findOne now l.id u db).fst
      = Except.ok { l with isArchived := true,
                           archivedReason := some ArchivedReason.EXPIRED }) ∧
    ((findOne now l.id u db).snd.forgottenItems
      = db.forgottenItems ++ assignIds db.nextId
          ((l.items.filter (fun it => !it.isCompleted)).map
            (fun it => mkForgotten l it))) := by
  have hfind : db.lists.find? (fun x => x.id == l.id && x.userId == u)
      = some l := by
    refine find?_key_of_nodup ListRec.id hnd hl (by simp [hu]) ?_
    intro y hy
    simp only [Bool.and_eq_true, beq_iff_eq] at hy
    simpa using hy.1
  have hL1 := handleExpired_self_lists now l e db he hpast ha
    (lists_find?_id_eq db l hnd hl)
    (fun x => x.id == l.id && x.userId == u)
    (fun y hy => by
      simp only [Bool.and_eq_true, beq_iff_eq] at hy
      simpa using hy.1)
    (by simp [hu])
  have hL2 := handleExpired_self_forgotten now l e db he hpast ha
  have hgoal : findOne now l.id u db
      = (Except.ok { l with isArchived := true,
                            archivedReason := some ArchivedReason.EXPIRED },
         handleExpiredList now l db) := by
    unfold findOne
    rw [hfind]
    simp only [hL1]
  rw [hgoal]
  exact ⟨rfl, hL2⟩

/-! ## Claim C1 -/

/-- C1: for every list owned by a user with a past expiry date and not
yet archived, after a read operation touching it (`findOne`, or
`findAll` for that owner) the list is archived with `archivedReason`
EXPIRED; every item that was incomplete at sweep time exists afterward
as a `ForgottenItem` whose name, quantity and notes match the item and
whose owner, origin list id, origin list name and expiry snapshot come
from the list; completed items are preserved nowhere (every new record
stems from an incomplete item); and with zero incomplete items the list
is still archived EXPIRED with zero `ForgottenItem`s created. -/
theorem expired_list_read_archives_and_snapshots (now : Nat) (u : String)
    (db : DB) (l : ListRec) (e : Nat)
    (hnd : (db.lists.map ListRec.id).Nodup) (hl : l ∈ db.lists)
    (hu : l.userId = u) (he : l.expiryDate = some e) (hpast : e < now)
    (ha : l.isArchived = false) :
    ((findOne now l.id u db).fst
        = Except.ok { l with isArchived := true,
                             archivedReason := some ArchivedReason.EXPIRED }) ∧
    ((findAll now u db).snd.lists.find? (fun x => x.id == l.id)
        = some { l with isArchived := true,
                        archivedReason := some ArchivedReason.EXPIRED }) ∧
    (∀ it ∈ l.items, it.isCompleted = false →
      ∃ fi ∈ (findOne now l.id u db).snd.forgottenItems,
        fi.name = it.name ∧ fi.quantity = it.quantity ∧
        fi.notes = it.notes ∧ fi.userId = l.userId ∧
        fi.originalListId = l.id ∧ fi.originalListName = l.name ∧
        fi.expiryDate = e) ∧
    (∀ fi ∈ (findOne now l.id u db).snd.forgottenItems,
      fi ∉ db.forgottenItems →
        ∃ it ∈ l.items, it.isCompleted = false ∧ fi.name = it.name ∧
          fi.quantity = it.quantity ∧ fi.notes = it.notes) ∧
    (∃ n0, (findAll now u db).snd.forgottenItems.filter
        (fun f => f.originalListId == l.id)
      = db.forgottenItems.filter (fun f => f.originalListId == l.id)
        ++ assignIds n0 ((l.items.filter (fun it => !it.isCompleted)).map
            (fun it => mkForgotten l it))) ∧
    (l.items.filter (fun it => !it.isCompleted) = [] →
      (findOne now l.id u db).snd.forgottenItems = db.forgottenItems) := by
  obtain ⟨h1, h2⟩ := findOne_sweeps_expired now u db l e hnd hl hu he hpast ha
  obtain ⟨h3, h4⟩ := findAll_sweeps_expired now u db l e hnd hl hu he hpast ha
  refine ⟨h1, h3, ?_, ?_, h4, ?_⟩
  · intro it hit hcomp
    have hfil : it ∈ l.items.filter (fun it => !it.isCompleted) :=
      List.mem_filter.mpr ⟨hit, by simp [hcomp]⟩
    have hmap : mkForgotten l it ∈
        (l.items.filter (fun it => !it.isCompleted)).map
          (fun it => mkForgotten l it) :=
      List.mem_map_of_mem _ hfil
    obtain ⟨n, hn⟩ := mem_assignIds db.nextId hmap
    refine ⟨mkForgotten l it n, ?_, rfl, rfl, rfl, rfl, rfl, rfl, ?_⟩
    · rw [h2]
      exact List.mem_append_right _ hn
    · simp [mkForgotten, he]
  · intro fi hfi hnew
    rw [h2] at hfi
    rcases List.mem_append.mp hfi with hold | hbatch
    · exact absurd hold hnew
    · obtain ⟨g, hg, n, rfl⟩ := mem_assignIds_elim hbatch
      obtain ⟨it, hit, rfl⟩ := List.mem_map.mp hg
      have := List.mem_filter.mp hit
      exact ⟨it, this.1, by simpa using this.2, rfl, rfl, rfl⟩
  · intro hempty
    rw [h2, hempty]
    show db.forgottenItems ++ assignIds db.nextId [] = db.forgottenItems
    rw [show assignIds db.nextId ([] : List (Nat → ForgottenItem)) = []
      from rfl, List.append_nil]

/-- Witness for C1 at a concrete store: `expiredList` (expiry 5, read at
time 10, one incomplete and one completed item) in `baseDB`. -/
theorem expired_list_read_archives_and_snapshots_witness :
    ((baseDB.lists.map ListRec.id).Nodup ∧ expiredList ∈ baseDB.lists ∧
      expiredList.userId = "u1" ∧ expiredList.expiryDate = some 5 ∧
      5 < 10 ∧ expiredList.isArchived = false) ∧
    (((findOne 10 expiredList.id "u1" baseDB).fst
        = Except.ok { expiredList with
            isArchived := true,
            archivedReason := some ArchivedReason.EXPIRED }) ∧
      ((findAll 10 "u1" baseDB).snd.lists.find?
          (fun x => x.id == expiredList.id)
        = some { expiredList with
            isArchived := true,
            archivedReason := some ArchivedReason.EXPIRED }) ∧
      (∀ it ∈ expiredList.items, it.isCompleted = false →
        ∃ fi ∈ (findOne 10 expiredList.id "u1" baseDB).snd.forgottenItems,
          fi.name = it.name ∧ fi.quantity = it.quantity ∧
          fi.notes = it.notes ∧ fi.userId = expiredList.userId ∧
          fi.originalListId = expiredList.id ∧
          fi.originalListName = expiredList.name ∧ fi.expiryDate = 5) ∧
      (∀ fi ∈ (findOne 10 expiredList.id "u1" baseDB).snd.forgottenItems,
        fi ∉ baseDB.forgottenItems →
          ∃ it ∈ expiredList.items, it.isCompleted = false ∧
            fi.name = it.name ∧ fi.quantity = it.quantity ∧
            fi.notes = it.notes) ∧
      (∃ n0, (findAll 10 "u1" baseDB).snd.forgottenItems.filter
          (fun f => f.originalListId == expiredList.id)
        = baseDB.forgottenItems.filter
            (fun f => f.originalListId == expiredList.id)
          ++ assignIds n0
              ((expiredList.items.filter (fun it => !it.isCompleted)).map
                (fun it => mkForgotten expiredList it))) ∧
      (expiredList.items.filter (fun it => !it.isCompleted) = [] →
        (findOne 10 expiredList.id "u1" baseDB).snd.forgottenItems
          = baseDB.forgottenItems)) :=
  ⟨⟨by decide, by decide, rfl, rfl, by decide, rfl⟩,
   expired_list_read_archives_and_snapshots 10 "u1" baseDB expiredList 5
     (by decide) (by decide) rfl rfl (by decide) rfl⟩

/-! ## Claim C3 -/

/-- C3: `findAll` returns only lists that are still non-archived after
the sweep (every returned list has `isArchived = false` and belongs to
the owner), whereas `findOne` on an existing expired list returns the
list even though the sweep just archived it. -/
theorem findAll_filters_archived_findOne_does_not (now : Nat) (u : String)
    (db : DB) (l : ListRec) (e : Nat)
    (hnd : (db.lists.map ListRec.id).Nodup) (hl : l ∈ db.lists)
    (hu : l.userId = u) (he : l.expiryDate = some e) (hpast : e < now)
    (ha : l.isArchived = false) :
    (∀ x ∈ (findAll now u db).fst, x.isArchived = false ∧ x.userId = u) ∧
    (∃ l2, (findOne now l.id u db).fst = Except.ok l2 ∧
      l2.isArchived = true ∧
      l2.archivedReason = some ArchivedReason.EXPIRED) := by
  constructor
  · intro x hx
    have hx2 := List.mem_filter.mp hx
    have := hx2.2
    simp only [Bool.and_eq_true, beq_iff_eq, Bool.not_eq_true'] at this
    exact ⟨this.2, this.1⟩
  · obtain ⟨h1, _⟩ := findOne_sweeps_expired now u db l e hnd hl hu he hpast ha
    exact ⟨_, h1, rfl, rfl⟩

/-- Witness for C3 at the concrete store `baseDB`. -/
theorem findAll_filters_archived_findOne_does_not_witness :
    ((baseDB.lists.map ListRec.id).Nodup ∧ expiredList ∈ baseDB.lists ∧
      expiredList.userId = "u1" ∧ expiredList.expiryDate = some 5 ∧
      5 < 10 ∧ expiredList.isArchived = false) ∧
    ((∀ x ∈ (findAll 10 "u1" baseDB).fst,
        x.isArchived = false ∧ x.userId = "u1") ∧
      (∃ l2, (findOne 10 expiredList.id "u1" baseDB).fst = Except.ok l2 ∧
        l2.isArchived = true ∧
        l2.archivedReason = some ArchivedReason.EXPIRED)) :=
  ⟨⟨by decide, by decide, rfl, rfl, by decide, rfl⟩,
   findAll_filters_archived_findOne_does_not 10 "u1" baseDB expiredList 5
     (by decide) (by decide) rfl rfl (by decide) rfl⟩

/-! ## Preservation of the forward archive invariant -/

theorem reasonInv_updateFirst {ls : List ListRec} {p : ListRec → Bool}
    {f : ListRec → ListRec}
    (h : ∀ l ∈ ls, l.isArchived = true → l.archivedReason ≠ none)
    (hf : ∀ x ∈ ls, p x = true →
      (f x).isArchived = true → (f x).archivedReason ≠ none) :
    ∀ l ∈ updateFirst p f ls, l.isArchived = true → l.archivedReason ≠ none := by
  intro l hl
  rcases mem_updateFirst_elim hl with hmem | ⟨x, hx, hpx, rfl⟩
  · exact h l hmem
  · exact hf x hx hpx

theorem reasonInv_append {ls ms : List ListRec}
    (h1 : ∀ l ∈ ls, l.isArchived = true → l.archivedReason ≠ none)
    (h2 : ∀ l ∈ ms, l.isArchived = true → l.archivedReason ≠ none) :
    ∀ l ∈ ls ++ ms, l.isArchived = true → l.archivedReason ≠ none := by
  intro l hl
  rcases List.mem_append.mp hl with h | h
  · exact h1 l h
  · exact h2 l h

theorem reasonInv_handleExpired (now : Nat) (a : ListRec) {db : DB}
    (hinv : archReasonInv db) : archReasonInv (handleExpiredList now a db) := by
  unfold handleExpiredList
  cases hg : (pastExpiry now a && !a.isArchived) with
  | false => exact hinv
  | true =>
    simp only [if_true]
    have hdb1 : archReasonInv
        (if (a.items.filter (fun it => !it.isCompleted)).length > 0 then
          insertForgottenMany db
            ((a.items.filter (fun it => !it.isCompleted)).map
              (fun it => mkForgotten a it))
        else db) := by
      split
      · exact hinv
      · exact hinv
    unfold archiveExpired
    intro l hl hla
    exact reasonInv_updateFirst hdb1 (fun x _ _ _ => by simp) l hl hla

theorem reasonInv_sweep_foldl (now : Nat) :
    ∀ (as : List ListRec) {db : DB}, archReasonInv db →
      archReasonInv (as.foldl (fun d x => handleExpiredList now x d) db) := by
  intro as
  induction as with
  | nil => intro db h; exact h
  | cons a as ih =>
    intro db h
    exact ih (reasonInv_handleExpired now a h)

theorem archReasonInv_create (dto : CreateListDto) (u : String) {db : DB}
    (hinv : archReasonInv db) : archReasonInv (create dto u db).snd := by
  intro x hx hax
  rcases List.mem_append.mp hx with h | h
  · exact hinv x h hax
  · rw [List.mem_singleton.mp h] at hax
    exact absurd hax (by simp)

theorem archReasonInv_update (i : Nat) (dto : UpdateListDto) (u : String)
    {db : DB} (hinv : archReasonInv db) :
    archReasonInv (update i dto u db).snd := by
  unfold update
  cases h : db.lists.find? (fun l => l.id == i && l.userId == u) with
  | none => exact hinv
  | some l0 =>
    dsimp only
    cases h2 : (updateFirst (fun l => l.id == i && l.userId == u)
        (applyListUpdate dto) db.lists).find?
        (fun l => l.id == i && l.userId == u) <;>
    · dsimp only
      refine fun x hx hax => reasonInv_updateFirst hinv ?_ x hx hax
      intro y hy _ hay
      exact hinv y hy hay

theorem reasonInv_updateFirst_frame {ls : List ListRec} {p : ListRec → Bool}
    {f : ListRec → ListRec}
    (h : ∀ l ∈ ls, l.isArchived = true → l.archivedReason ≠ none)
    (hf : ∀ y, (f y).isArchived = y.isArchived ∧
      (f y).archivedReason = y.archivedReason) :
    ∀ l ∈ updateFirst p f ls, l.isArchived = true → l.archivedReason ≠ none := by
  intro l hl
  rcases mem_updateFirst_elim hl with hmem | ⟨x, hx, hpx, rfl⟩
  · exact h l hmem
  · intro hax
    rw [(hf x).1] at hax
    rw [(hf x).2]
    exact h x hx hax

theorem archReasonInv_archive (i : Nat) (u : String) {db : DB}
    (hinv : archReasonInv db) : archReasonInv (archive i u db).snd := by
  unfold archive
  cases h : db.lists.find? (fun l => l.id == i && l.userId == u) with
  | none => exact hinv
  | some l0 =>
    dsimp only
    split <;>
    · refine fun x hx hax => reasonInv_updateFirst hinv ?_ x hx hax
      intro y _ _ _
      simp

theorem archReasonInv_addItem (i : Nat) (u : String) (dto : CreateItemDto)
    {db : DB} (hinv : archReasonInv db) :
    archReasonInv (addItem i u dto db).snd := by
  unfold addItem
  cases h : db.lists.find? (fun l => l.id == i && l.userId == u) with
  | none => exact hinv
  | some l0 =>
    dsimp only
    split
    · exact hinv
    · split <;>
      · refine fun x hx hax => reasonInv_updateFirst_frame hinv ?_ x hx hax
        exact fun y => ⟨rfl, rfl⟩

theorem archReasonInv_updateItem (i : Nat) (u : String) (j : Nat)
    (dto : UpdateItemDto) {db : DB} (hinv : archReasonInv db) :
    archReasonInv (updateItem i u j dto db).snd := by
  unfold updateItem
  cases h : db.lists.find? (fun l => l.id == i && l.userId == u) with
  | none => exact hinv
  | some l0 =>
    dsimp only
    split
    · exact hinv
    · split <;>
      · refine fun x hx hax => reasonInv_updateFirst_frame hinv ?_ x hx hax
        exact fun y => ⟨rfl, rfl⟩

theorem archReasonInv_deleteItem (i : Nat) (u : String) (j : Nat)
    {db : DB} (hinv : archReasonInv db) :
    archReasonInv (deleteItem i u j db).snd := by
  unfold deleteItem
  cases h : db.lists.find? (fun l => l.id == i && l.userId == u) with
  | none => exact hinv
  | some l0 =>
    dsimp only
    split
    · exact hinv
    · split <;>
      · refine fun x hx hax => reasonInv_updateFirst_frame hinv ?_ x hx hax
        exact fun y => ⟨rfl, rfl⟩

theorem archReasonInv_findOne (now : Nat) (i : Nat) (u : String) {db : DB}
    (hinv : archReasonInv db) : archReasonInv (findOne now i u db).snd := by
  unfold findOne
  cases h : db.lists.find? (fun l => l.id == i && l.userId == u) with
  | none => exact hinv
  | some l0 =>
    dsimp only
    split <;> exact reasonInv_handleExpired now l0 hinv

theorem archReasonInv_findAll (now : Nat) (u : String) {db : DB}
    (hinv : archReasonInv db) : archReasonInv (findAll now u db).snd :=
  reasonInv_sweep_foldl now
    (db.lists.filter (fun l => l.userId == u && !l.isArchived)) hinv

theorem archReasonInv_dismiss (u : String) (dto : DismissForgottenItemsDto)
    {db : DB} (hinv : archReasonInv db) :
    archReasonInv (dismissForgottenItems u dto db).snd := by
  unfold dismissForgottenItems
  cases dto.listId with
  | some lid => exact hinv
  | none =>
    cases dto.itemIds with
    | none => exact hinv
    | some ids =>
      dsimp only
      split
      · exact hinv
      · exact hinv

theorem archReasonInv_reactivate (u : String) (dto : ReactivateListDto)
    {db : DB} (hinv : archReasonInv db) :
    archReasonInv (reactivateList u dto db).snd := by
  unfold reactivateList
  cases h : db.lists.find? (fun l => l.id == dto.listId && l.userId == u) with
  | none => exact hinv
  | some l0 =>
    dsimp only
    split <;>
    · refine fun x hx hax => reasonInv_updateFirst hinv ?_ x hx hax
      intro y _ _ hay
      simp at hay

theorem archReasonInv_moveToNewList (u : String) (dto : MoveToNewListDto)
    {db : DB} (hinv : archReasonInv db) :
    archReasonInv (moveToNewList u dto db).snd := by
  unfold moveToNewList
  dsimp only
  split
  · exact hinv
  · exact hinv

theorem archReasonInv_shareList (i : Nat) (m : Option String) (o : String)
    (now : Nat) (t : String) (fr : String) {db : DB}
    (hinv : archReasonInv db) :
    archReasonInv (shareList i m o now t fr db).snd := by
  unfold shareList
  cases h : db.lists.find? (fun l => l.id == i) with
  | none => exact hinv
  | some l0 =>
    dsimp only
    split
    · cases h2 : db.shares.find?
          (fun s => s.listId == i && s.ownerId == o && s.isActive) with
      | some ex =>
        dsimp only
        split <;> exact hinv
      | none =>
        dsimp only
        split
        · exact hinv
        · next db1 heq =>
          have hdb1 : db1.lists = db.lists := by
            unfold userInvitationSave at heq
            split at heq
            · cases heq; rfl
            · exact absurd heq (by simp)
          split
          · intro x hx hax
            rw [hdb1] at hx
            exact hinv x hx hax
          · next db2 heq2 =>
            have hdb2 : db2.lists = db1.lists := by
              unfold sharedListSave at heq2
              split at heq2
              · cases heq2; rfl
              · exact absurd heq2 (by simp)
            intro x hx hax
            rw [show ({ db2 with nextId := db.nextId + 2 } : DB).lists
              = db2.lists from rfl, hdb2, hdb1] at hx
            exact hinv x hx hax
    · exact hinv

theorem archReasonInv_acceptShare (t : String) (u : String) (now : Nat)
    {db : DB} (hinv : archReasonInv db) :
    archReasonInv (acceptShare t u now db).snd := by
  unfold acceptShare
  cases h : db.invitations.find?
      (fun i => i.invitationToken == t &&
        i.status == InvitationStatus.PENDING && decide (now < i.expiresAt)) with
  | none => exact hinv
  | some inv0 =>
    dsimp only
    cases h2 : db.shares.find?
        (fun s => s.invitationToken == t && s.status == ShareStatus.PENDING) with
    | none => exact hinv
    | some sh => exact hinv

theorem archReasonInv_revokeShare (s : Nat) (u : String) {db : DB}
    (hinv : archReasonInv db) : archReasonInv (revokeShare s u db).snd := by
  unfold revokeShare
  cases h : db.shares.find? (fun x => x.id == s) with
  | none => exact hinv
  | some sh =>
    dsimp only
    split
    · exact hinv
    · exact hinv

/-- `reactivateList` sets `isArchived := false` on the target but leaves
`archivedReason` exactly as it was. -/
theorem reactivateList_keeps_reason (u : String) (dto : ReactivateListDto)
    (db : DB) (l : ListRec)
    (hfind : db.lists.find? (fun x => x.id == dto.listId && x.userId == u)
      = some l) :
    ∃ l2, (reactivateList u dto db).snd.lists.find?
        (fun x => x.id == dto.listId && x.userId == u) = some l2 ∧
      l2.isArchived = false ∧ l2.archivedReason = l.archivedReason := by
  have hql := List.find?_some hfind
  unfold reactivateList
  rw [hfind]
  dsimp only
  split <;>
  · refine ⟨_, find?_updateFirst_strong hfind (fun y hy => hy) ?_, rfl, rfl⟩
    exact hql

theorem archived_iff_spec_counterexample :
    archReasonIff archivedDB ∧
    ¬ archReasonIff
        (reactivateList "u1" { listId := 2, itemIds := none } archivedDB).snd ∧
    (∃ l2 ∈ (reactivateList "u1"
        { listId := 2, itemIds := none } archivedDB).snd.lists,
      l2.isArchived = false ∧
      l2.archivedReason = some ArchivedReason.DELETED) :=
  ⟨by unfold archReasonIff; decide, by unfold archReasonIff; decide, by decide⟩

/-- C2 (corrected): the forward direction of the archive invariant --
`archivedReason` is non-null whenever `isArchived` is true -- is
preserved by every modelled operation; but `reactivateList` sets
`isArchived := false` while leaving `archivedReason` unchanged, so the
claimed iff (and "reactivation clears both flags") fails: after
reactivating an archived list the reason stays non-null. -/
theorem archived_reason_invariant_amended (db : DB) (hinv : archReasonInv db) :
    (∀ dto u, archReasonInv (create dto u db).snd) ∧
    (∀ i dto u, archReasonInv (update i dto u db).snd) ∧
    (∀ i u, archReasonInv (archive i u db).snd) ∧
    (∀ i u dto, archReasonInv (addItem i u dto db).snd) ∧
    (∀ i u j dto, archReasonInv (updateItem i u j dto db).snd) ∧
    (∀ i u j, archReasonInv (deleteItem i u j db).snd) ∧
    (∀ now i u, archReasonInv (findOne now i u db).snd) ∧
    (∀ now u, archReasonInv (findAll now u db).snd) ∧
    (∀ u dto, archReasonInv (dismissForgottenItems u dto db).snd) ∧
    (∀ u dto, archReasonInv (reactivateList u dto db).snd) ∧
    (∀ u dto, archReasonInv (moveToNewList u dto db).snd) ∧
    (∀ i m o now t fr, archReasonInv (shareList i m o now t fr db).snd) ∧
    (∀ t u now, archReasonInv (acceptShare t u now db).snd) ∧
    (∀ s u, archReasonInv (revokeShare s u db).snd) ∧
    (∀ u dto l, db.lists.find? (fun x => x.id == dto.listId && x.userId == u)
        = some l →
      ∃ l2, (reactivateList u dto db).snd.lists.find?
          (fun x => x.id == dto.listId && x.userId == u) = some l2 ∧
        l2.isArchived = false ∧ l2.archivedReason = l.archivedReason) :=
  ⟨fun dto u => archReasonInv_create dto u hinv,
   fun i dto u => archReasonInv_update i dto u hinv,
   fun i u => archReasonInv_archive i u hinv,
   fun i u dto => archReasonInv_addItem i u dto hinv,
   fun i u j dto => archReasonInv_updateItem i u j dto hinv,
   fun i u j => archReasonInv_deleteItem i u j hinv,
   fun now i u => archReasonInv_findOne now i u hinv,
   fun now u => archReasonInv_findAll now u hinv,
   fun u dto => archReasonInv_dismiss u dto hinv,
   fun u dto => archReasonInv_reactivate u dto hinv,
   fun u dto => archReasonInv_moveToNewList u dto hinv,
   fun i m o now t fr => archReasonInv_shareList i m o now t fr hinv,
   fun t u now => archReasonInv_acceptShare t u now hinv,
   fun s u => archReasonInv_revokeShare s u hinv,
   fun u dto l h => reactivateList_keeps_reason u dto db l h⟩

/-- Witness for C2's amended theorem at the concrete store `archivedDB`:
the forward invariant survives `archive`, and reactivating the archived
list leaves its DELETED reason in place. -/
theorem archived_reason_invariant_amended_witness :
    archReasonInv archivedDB ∧
    archReasonInv (archive 2 "u1" archivedDB).snd ∧
    (∃ l2, (reactivateList "u1"
        { listId := 2, itemIds := none } archivedDB).snd.lists.find?
        (fun x => x.id == (2 : Nat) && x.userId == "u1") = some l2 ∧
      l2.isArchived = false ∧
      l2.archivedReason = archivedList.archivedReason) := by
  have hinv : archReasonInv archivedDB := by unfold archReasonInv; decide
  refine ⟨hinv,
    (archived_reason_invariant_amended archivedDB hinv).2.2.1 2 "u1", ?_⟩
  exact (archived_reason_invariant_amended archivedDB
      hinv).2.2.2.2.2.2.2.2.2.2.2.2.2.2
    "u1" { listId := 2, itemIds := none } archivedList (by decide)

theorem eq_of_mem_of_length_le_one {α : Type} {xs : List α}
    (h : xs.length ≤ 1) {a b : α} (ha : a ∈ xs) (hb : b ∈ xs) : a = b := by
  cases xs with
  | nil => exact absurd ha (List.not_mem_nil a)
  | cons x ys =>
    cases ys with
    | nil =>
      rw [List.mem_singleton.mp ha, List.mem_singleton.mp hb]
    | cons y zs => simp at h

theorem find?_updateFirst_strong2 {α : Type} {p q : α → Bool} {f : α → α}
    {xs : List α} {x : α} (h : xs.find? p = some x)
    (himp : ∀ y ∈ xs, q y = true → p y = true) (hfx : q (f x) = true) :
    (updateFirst p f xs).find? q = some (f x) := by
  obtain ⟨as, bs, rfl, has, hx⟩ := find?_eq_some_split h
  rw [updateFirst_append_cons f x bs has hx]
  refine find?_append_cons bs ?_ hfx
  intro a ha
  cases hqa : q a with
  | true =>
    have hpa := himp a (List.mem_append_left _ ha) hqa
    have := has a ha
    rw [hpa] at this
    exact absurd this (by simp)
  | false => rfl

theorem filter_length_updateFirst_eq {α : Type} (p q : α → Bool) (f : α → α)
    (hf : ∀ y, q (f y) = q y) :
    ∀ xs : List α,
      ((updateFirst p f xs).filter q).length = (xs.filter q).length := by
  intro xs
  induction xs with
  | nil => rfl
  | cons a as ih =>
    cases hp : p a with
    | true =>
      simp only [updateFirst, hp, if_true]
      rw [List.filter_cons, List.filter_cons, hf a]
      cases q a <;> simp
    | false =>
      simp only [updateFirst, hp, Bool.false_eq_true, if_false]
      rw [List.filter_cons, List.filter_cons]
      cases q a <;> simp [ih]

theorem bool_eq_false_of_find?_none {α : Type} {p : α → Bool} {xs : List α}
    (h : xs.find? p = none) : ∀ x ∈ xs, p x = false := by
  intro x hx
  have := List.find?_eq_none.mp h x hx
  cases hp : p x with
  | true => exact absurd hp this
  | false => rfl

/-- `shareList`, fresh-share branch: no active share exists for the
pair, so a new invitation + share pair would be minted — but the minted
`UserInvitation` carries `contact = ""`, which the schema's required
String validator rejects, so `invitation.save()` throws and the call
fails with nothing written. -/
theorem shareList_create_always_fails (listId : Nat) (m : Option String)
    (o : String) (now : Nat) (t fr : String) (db : DB) (list : ListRec)
    (hfind : db.lists.find? (fun l => l.id == listId) = some list)
    (hown : list.userId = o)
    (hA : db.shares.find?
      (fun s => s.listId == listId && s.ownerId == o && s.isActive) = none) :
    shareList listId m o now t fr db
      = (Except.error (Err.internal
          "ValidationError: Path `contact` is required."), db) := by
  have hbeq : (list.userId == o) = true := by simp [hown]
  unfold shareList
  rw [hfind]
  try dsimp only
  rw [if_pos hbeq]
  try dsimp only
  rw [hA]
  try rfl

/-- `shareList`, re-share branch: an active share exists for the pair,
so only its message is updated and the existing token is returned. -/
theorem shareList_reshare_eq (listId : Nat) (m : Option String) (o : String)
    (now : Nat) (t fr : String) (db : DB) (list : ListRec) (ex : SharedList)
    (inv1 : UserInvitation)
    (hfind : db.lists.find? (fun l => l.id == listId) = some list)
    (hown : list.userId = o)
    (hB : db.shares.find?
      (fun s => s.listId == listId && s.ownerId == o && s.isActive) = some ex)
    (hInv : db.invitations.find?
      (fun i => i.invitationToken == ex.invitationToken) = some inv1) :
    shareList listId m o now t fr db
      = (Except.ok (createShareResponse fr ex.id inv1.invitationToken),
         { db with
           shares := updateFirst (fun s => s.id == ex.id)
             (fun s => { s with message := m }) db.shares }) := by
  have hbeq : (list.userId == o) = true := by simp [hown]
  unfold shareList
  rw [hfind]
  try dsimp only
  rw [if_pos hbeq]
  try dsimp only
  rw [hB]
  try dsimp only
  rw [hInv]

/-- Updating one share's message never changes which shares are active,
so the one-active-share-per-pair bound survives. -/
theorem atMostOne_updateFirst_message (db2 : DB) (p : SharedList → Bool)
    (m : Option String) (hone2 : atMostOneActive db2) :
    atMostOneActive { db2 with
      shares := updateFirst p (fun s => { s with message := m }) db2.shares } := by
  intro lid own
  show ((updateFirst p (fun s => { s with message := m })
      db2.shares).filter (activeShareFor lid own)).length ≤ 1
  have heq := filter_length_updateFirst_eq p (activeShareFor lid own)
    (fun s => { s with message := m }) (fun y => rfl) db2.shares
  rw [heq]
  exact hone2 lid own

/-- C4 (code bug): the claim's fresh-share half is unexecutable.  The
minted `UserInvitation` always carries `contact: ''` although the
UserInvitation schema marks `contact` a required String path, so
`invitation.save()` throws a ValidationError and a first-time
`shareList` always fails with nothing written (part 1 in general,
part 2 concretely at `baseDB`).  Only the re-share half of the claim
holds (part 3): with an active share already present, two consecutive
`shareList` calls return the same existing invitation token, create no
new SharedList or UserInvitation, and preserve the
one-active-share-per-pair bound. -/
theorem shareList_contact_required_bug (listId : Nat) (m1 m2 : Option String)
    (o : String) (now1 now2 : Nat) (t1 t2 fr : String) (db : DB)
    (list : ListRec)
    (hfind : db.lists.find? (fun l => l.id == listId) = some list)
    (hown : list.userId = o)
    (htok : shareTokenInv db)
    (hone : atMostOneActive db)
    (hndsh : (db.shares.map SharedList.id).Nodup) :
    (db.shares.find?
        (fun s => s.listId == listId && s.ownerId == o && s.isActive) = none →
      shareList listId m1 o now1 t1 fr db
        = (Except.error (Err.internal
            "ValidationError: Path `contact` is required."), db)) ∧
    ((shareList 1 (some "hi") "u1" 0 "tokA" "http://f" baseDB).fst
      = Except.error (Err.internal
          "ValidationError: Path `contact` is required.")) ∧
    (∀ ex : SharedList,
      db.shares.find?
          (fun s => s.listId == listId && s.ownerId == o && s.isActive)
        = some ex →
      ∃ resp1 resp2,
        (shareList listId m1 o now1 t1 fr db).fst = Except.ok resp1 ∧
        (shareList listId m2 o now2 t2 fr
            (shareList listId m1 o now1 t1 fr db).snd).fst = Except.ok resp2 ∧
        resp2.invitationToken = resp1.invitationToken ∧
        ((shareList listId m2 o now2 t2 fr
            (shareList listId m1 o now1 t1 fr db).snd).snd.shares.length
          = (shareList listId m1 o now1 t1 fr db).snd.shares.length) ∧
        ((shareList listId m2 o now2 t2 fr
            (shareList listId m1 o now1 t1 fr db).snd).snd.invitations
          = (shareList listId m1 o now1 t1 fr db).snd.invitations) ∧
        atMostOneActive (shareList listId m1 o now1 t1 fr db).snd ∧
        atMostOneActive (shareList listId m2 o now2 t2 fr
            (shareList listId m1 o now1 t1 fr db).snd).snd) := by
  refine ⟨fun hA =>
    shareList_create_always_fails listId m1 o now1 t1 fr db list hfind hown hA,
    by rfl, ?_⟩
  intro ex hA
  have hexmem : ex ∈ db.shares := List.mem_of_find?_eq_some hA
  have hexpred := List.find?_some hA
  obtain ⟨inv1, hinv1mem, hinv1tok⟩ := htok ex hexmem
  cases hI : db.invitations.find?
      (fun i => i.invitationToken == ex.invitationToken) with
  | none =>
    exfalso
    exact List.find?_eq_none.mp hI inv1 hinv1mem (beq_iff_eq.mpr hinv1tok)
  | some invF =>
    have h1 := shareList_reshare_eq listId m1 o now1 t1 fr db list ex invF
      hfind hown hA hI
    rw [h1]
    dsimp only
    have hidfind : db.shares.find? (fun s => s.id == ex.id) = some ex :=
      find?_key_of_nodup SharedList.id hndsh hexmem (by simp)
        (fun y hy => by simpa using hy)
    have himp : ∀ y ∈ db.shares,
        (fun s : SharedList =>
          s.listId == listId && s.ownerId == o && s.isActive) y = true →
        (fun s : SharedList => s.id == ex.id) y = true := by
      intro y hy hqy
      have heq : y = ex := eq_of_mem_of_length_le_one (hone listId o)
        (List.mem_filter.mpr ⟨hy, hqy⟩)
        (List.mem_filter.mpr ⟨hexmem, hexpred⟩)
      rw [heq]
      simp
    have hB2 : (updateFirst (fun s : SharedList => s.id == ex.id)
        (fun s => { s with message := m1 }) db.shares).find?
        (fun s => s.listId == listId && s.ownerId == o && s.isActive)
        = some { ex with message := m1 } :=
      find?_updateFirst_strong2 hidfind himp hexpred
    have honeD : atMostOneActive
        { db with
          shares := updateFirst (fun s => s.id == ex.id)
            (fun s => { s with message := m1 }) db.shares } :=
      atMostOne_updateFirst_message db _ m1 hone
    have h2 := shareList_reshare_eq listId m2 o now2 t2 fr
      { db with
        shares := updateFirst (fun s => s.id == ex.id)
          (fun s => { s with message := m1 }) db.shares }
      list { ex with message := m1 } invF hfind hown hB2 hI
    rw [h2]
    dsimp only
    refine ⟨_, _, rfl, rfl, rfl, ?_, rfl, honeD, ?_⟩
    · exact length_updateFirst _
    · exact atMostOne_updateFirst_message
        { db with
          shares := updateFirst (fun s => s.id == ex.id)
            (fun s => { s with message := m1 }) db.shares } _ m2 honeD

/-- Witness for C4 at the concrete stores `baseDB` (empty share store:
the fresh branch fails on the required `contact`) and `reshareDB` (an
active share with its invitation exists: the re-share branch is
idempotent). -/
theorem shareList_contact_required_bug_witness :
    (reshareDB.lists.find? (fun l => l.id == 1) = some listWithRecipient ∧
      listWithRecipient.userId = "u1" ∧ shareTokenInv reshareDB ∧
      atMostOneActive reshareDB ∧
      (reshareDB.shares.map SharedList.id).Nodup ∧
      reshareDB.shares.find?
          (fun s => s.listId == 1 && s.ownerId == "u1" && s.isActive)
        = some acceptedShare) ∧
    ((shareList 1 (some "hi") "u1" 0 "tokA" "http://f" baseDB).fst
      = Except.error (Err.internal
          "ValidationError: Path `contact` is required.")) ∧
    (∃ resp1 resp2,
      (shareList 1 (some "hi") "u1" 0 "tokA" "http://f" reshareDB).fst
        = Except.ok resp1 ∧
      (shareList 1 (some "yo") "u1" 5 "tokB" "http://f"
          (shareList 1 (some "hi") "u1" 0 "tokA" "http://f" reshareDB).snd).fst
        = Except.ok resp2 ∧
      resp2.invitationToken = resp1.invitationToken ∧
      ((shareList 1 (some "yo") "u1" 5 "tokB" "http://f"
          (shareList 1 (some "hi") "u1" 0 "tokA" "http://f"
            reshareDB).snd).snd.shares.length
        = (shareList 1 (some "hi") "u1" 0 "tokA" "http://f"
            reshareDB).snd.shares.length) ∧
      ((shareList 1 (some "yo") "u1" 5 "tokB" "http://f"
          (shareList 1 (some "hi") "u1" 0 "tokA" "http://f"
            reshareDB).snd).snd.invitations
        = (shareList 1 (some "hi") "u1" 0 "tokA" "http://f"
            reshareDB).snd.invitations) ∧
      atMostOneActive
        (shareList 1 (some "hi") "u1" 0 "tokA" "http://f" reshareDB).snd ∧
      atMostOneActive (shareList 1 (some "yo") "u1" 5 "tokB" "http://f"
          (shareList 1 (some "hi") "u1" 0 "tokA" "http://f"
            reshareDB).snd).snd) := by
  have h1 : reshareDB.lists.find? (fun l => l.id == 1)
      = some listWithRecipient := by decide
  have h2 : listWithRecipient.userId = "u1" := rfl
  have h3 : shareTokenInv reshareDB := by
    unfold shareTokenInv
    decide
  have h4 : atMostOneActive reshareDB := by
    intro lid own
    show (List.filter (activeShareFor lid own) [acceptedShare]).length ≤ 1
    cases hp : activeShareFor lid own acceptedShare <;>
      simp [List.filter, hp]
  have h5 : (reshareDB.shares.map SharedList.id).Nodup := by decide
  have hB : reshareDB.shares.find?
      (fun s => s.listId == 1 && s.ownerId == "u1" && s.isActive)
      = some acceptedShare := by decide
  have hmain := shareList_contact_required_bug 1 (some "hi") (some "yo")
    "u1" 0 5 "tokA" "tokB" "http://f" reshareDB listWithRecipient
    h1 h2 h3 h4 h5
  exact ⟨⟨h1, h2, h3, h4, h5, hB⟩, hmain.2.1, hmain.2.2 acceptedShare hB⟩

/-- C5 counterexample to the claim's "the target list gains the
accepting user" conjunct, at the concrete store `sharingDB`: the accept
succeeds, yet the list store is unchanged and "u2" appears in no list's
shared-with set — `sharedWith` is not a path of the List schema, so
Mongoose strict mode strips the `$addToSet` write. -/
theorem acceptShare_sharedWith_stripped_counterexample :
    (acceptShare "tok" "u2" 10 sharingDB).fst = Except.ok { listId := 1 } ∧
    (acceptShare "tok" "u2" 10 sharingDB).snd.lists = sharingDB.lists ∧
    (∀ l ∈ (acceptShare "tok" "u2" 10 sharingDB).snd.lists,
      "u2" ∉ l.sharedWith) :=
  ⟨rfl, rfl, by decide⟩

/-- C5 (amended): acceptShare resolves the token to a PENDING,
unexpired invitation (else NotFound with no state change); on success
the invitation becomes ACCEPTED recording the user, the paired share
becomes ACCEPTED with the user as recipient, and any later acceptShare
with the same token fails with NotFound leaving the state unchanged —
but the target list does NOT gain the user: `sharedWith` is not a List
schema path, so strict mode strips the `$addToSet` and the list store
is left unchanged. -/
theorem acceptShare_token_lifecycle (t u u2 : String) (now now2 : Nat)
    (db : DB) (inv : UserInvitation)
    (hndi : (db.invitations.map UserInvitation.id).Nodup)
    (hnds : (db.shares.map SharedList.id).Nodup)
    (huniq : ∀ j ∈ db.invitations, j.invitationToken = t → j = inv)
    (hmemi : inv ∈ db.invitations)
    (htok : inv.invitationToken = t) :
    ((inv.status ≠ InvitationStatus.PENDING ∨ ¬ now < inv.expiresAt) →
      (acceptShare t u now db).fst
        = Except.error (Err.notFound "Invalid or expired invitation token") ∧
      (acceptShare t u now db).snd = db) ∧
    (inv.status = InvitationStatus.PENDING → now < inv.expiresAt →
      ∀ (sh : SharedList),
      db.shares.find? (fun s => s.invitationToken == t &&
        s.status == ShareStatus.PENDING) = some sh →
      (acceptShare t u now db).fst = Except.ok { listId := sh.listId } ∧
      ((acceptShare t u now db).snd.invitations.find?
          (fun i => i.id == inv.id)
        = some { inv with status := InvitationStatus.ACCEPTED,
                          userId := some u }) ∧
      ((acceptShare t u now db).snd.shares.find? (fun s => s.id == sh.id)
        = some { sh with status := ShareStatus.ACCEPTED,
                         sharedWithId := u }) ∧
      ((acceptShare t u now db).snd.lists = db.lists) ∧
      ((acceptShare t u2 now2 (acceptShare t u now db).snd).fst
        = Except.error (Err.notFound "Invalid or expired invitation token")) ∧
      ((acceptShare t u2 now2 (acceptShare t u now db).snd).snd
        = (acceptShare t u now db).snd)) := by
  constructor
  · intro hbad
    have hnone : db.invitations.find?
        (fun i => i.invitationToken == t &&
          i.status == InvitationStatus.PENDING &&
          decide (now < i.expiresAt)) = none := by
      refine List.find?_eq_none.mpr ?_
      intro x hx
      by_cases hxt : x.invitationToken = t
      · have hxinv : x = inv := huniq x hx hxt
        subst hxinv
        rcases hbad with hb | hb
        · simp [hb]
        · simp [hb]
      · simp [hxt]
    unfold acceptShare
    rw [hnone]
    exact ⟨rfl, rfl⟩
  · intro hpend hunexp sh hS
    have hpredinv : (fun i : UserInvitation => i.invitationToken == t &&
        i.status == InvitationStatus.PENDING &&
        decide (now < i.expiresAt)) inv = true := by
      simp [htok, hpend, hunexp]
    have hI : db.invitations.find?
        (fun i => i.invitationToken == t &&
          i.status == InvitationStatus.PENDING &&
          decide (now < i.expiresAt)) = some inv := by
      cases hI0 : db.invitations.find?
          (fun i => i.invitationToken == t &&
            i.status == InvitationStatus.PENDING &&
            decide (now < i.expiresAt)) with
      | none => exact absurd hpredinv (List.find?_eq_none.mp hI0 inv hmemi)
      | some y =>
        have hy := List.find?_some hI0
        have hymem := List.mem_of_find?_eq_some hI0
        simp only [Bool.and_eq_true, beq_iff_eq] at hy
        rw [huniq y hymem hy.1.1]
    have hIdFind : db.invitations.find? (fun i => i.id == inv.id)
        = some inv :=
      find?_key_of_nodup UserInvitation.id hndi hmemi (by simp)
        (fun y hy => by simpa using hy)
    have hShFind : db.shares.find? (fun s => s.id == sh.id) = some sh :=
      find?_key_of_nodup SharedList.id hnds (List.mem_of_find?_eq_some hS)
        (by simp) (fun y hy => by simpa using hy)
    unfold acceptShare
    rw [hI]
    dsimp only
    rw [hS]
    dsimp only
    obtain ⟨as, bs, hsplit, hasp, _⟩ := find?_eq_some_split hIdFind
    have hinv2 : (updateFirst (fun i => i.id == inv.id)
        (fun i => { i with status := InvitationStatus.ACCEPTED,
                           userId := some u }) db.invitations).find?
        (fun i => i.id == inv.id)
        = some { inv with status := InvitationStatus.ACCEPTED,
                          userId := some u } :=
      find?_updateFirst_strong hIdFind (fun y hy => hy)
        (by simp)
    have hsh2 : (updateFirst (fun s => s.id == sh.id)
        (fun s => { s with status := ShareStatus.ACCEPTED,
                           sharedWithId := u }) db.shares).find?
        (fun s => s.id == sh.id)
        = some { sh with status := ShareStatus.ACCEPTED,
                         sharedWithId := u } :=
      find?_updateFirst_strong hShFind (fun y hy => hy) (by simp)
    have hnone2 : (updateFirst (fun i => i.id == inv.id)
        (fun i => { i with status := InvitationStatus.ACCEPTED,
                           userId := some u }) db.invitations).find?
        (fun i => i.invitationToken == t &&
          i.status == InvitationStatus.PENDING &&
          decide (now2 < i.expiresAt)) = none := by
      refine List.find?_eq_none.mpr ?_
      rw [hsplit, updateFirst_append_cons _ inv bs hasp (by simp)]
      intro x hx
      have hndsplit := hndi
      rw [hsplit, List.map_append, List.map_cons] at hndsplit
      have h3 := List.nodup_append.mp hndsplit
      rcases List.mem_append.mp hx with hxas | hxcons
      · have hxmem : x ∈ db.invitations := by
          rw [hsplit]; exact List.mem_append_left _ hxas
        have hxne : x ≠ inv := by
          intro hcontra
          have := hasp x hxas
          rw [hcontra] at this
          simp at this
        have : x.invitationToken ≠ t := fun hc => hxne (huniq x hxmem hc)
        simp [beq_eq_false_iff_ne.mpr this]
      · rcases List.mem_cons.mp hxcons with rfl | hxbs
        · simp
        · have hxmem : x ∈ db.invitations := by
            rw [hsplit]
            exact List.mem_append_right _ (List.mem_cons_of_mem _ hxbs)
          have hxne : x ≠ inv := by
            intro hcontra
            have : UserInvitation.id inv ∈ bs.map UserInvitation.id := by
              rw [← hcontra]
              exact List.mem_map_of_mem UserInvitation.id hxbs
            exact (List.nodup_cons.mp h3.2.1).1 this
          have : x.invitationToken ≠ t := fun hc => hxne (huniq x hxmem hc)
          simp [beq_eq_false_iff_ne.mpr this]
    refine ⟨rfl, hinv2, hsh2, rfl, ?_, ?_⟩
    · rw [hnone2]
    · rw [hnone2]

/-- Witness for C5 at the concrete store `sharingDB`. -/
theorem acceptShare_token_lifecycle_witness :
    ((sharingDB.invitations.map UserInvitation.id).Nodup ∧
      (sharingDB.shares.map SharedList.id).Nodup ∧
      (∀ j ∈ sharingDB.invitations, j.invitationToken = "tok" →
        j = pendingInvitation) ∧
      pendingInvitation ∈ sharingDB.invitations ∧
      pendingInvitation.invitationToken = "tok") ∧
    (((pendingInvitation.status ≠ InvitationStatus.PENDING ∨
        ¬ 10 < pendingInvitation.expiresAt) →
      (acceptShare "tok" "u2" 10 sharingDB).fst
        = Except.error (Err.notFound "Invalid or expired invitation token") ∧
      (acceptShare "tok" "u2" 10 sharingDB).snd = sharingDB) ∧
    (pendingInvitation.status = InvitationStatus.PENDING →
      10 < pendingInvitation.expiresAt →
      ∀ (sh : SharedList),
      sharingDB.shares.find? (fun s => s.invitationToken == "tok" &&
        s.status == ShareStatus.PENDING) = some sh →
      (acceptShare "tok" "u2" 10 sharingDB).fst
        = Except.ok { listId := sh.listId } ∧
      ((acceptShare "tok" "u2" 10 sharingDB).snd.invitations.find?
          (fun i => i.id == pendingInvitation.id)
        = some { pendingInvitation with
            status := InvitationStatus.ACCEPTED, userId := some "u2" }) ∧
      ((acceptShare "tok" "u2" 10 sharingDB).snd.shares.find?
          (fun s => s.id == sh.id)
        = some { sh with status := ShareStatus.ACCEPTED,
                         sharedWithId := "u2" }) ∧
      ((acceptShare "tok" "u2" 10 sharingDB).snd.lists
        = sharingDB.lists) ∧
      ((acceptShare "tok" "u3" 20
          (acceptShare "tok" "u2" 10 sharingDB).snd).fst
        = Except.error (Err.notFound "Invalid or expired invitation token")) ∧
      ((acceptShare "tok" "u3" 20
          (acceptShare "tok" "u2" 10 sharingDB).snd).snd
        = (acceptShare "tok" "u2" 10 sharingDB).snd))) :=
  ⟨⟨by decide, by decide, by decide, by decide, rfl⟩,
   acceptShare_token_lifecycle "tok" "u2" "u3" 10 20 sharingDB
     pendingInvitation (by decide) (by decide) (by decide) (by decide) rfl⟩

/-- C6 (code bug): `moveToNewList` never succeeds — the new list is
created without a `category`, which the List schema marks `required`,
so `listModel.create` raises a ValidationError and the call errors out
with no state change; the only other outcome is the NotFound for an
empty resolved id set.  At the concrete failing input (one matching
ForgottenItem) the call returns the wrapped internal error. -/
theorem moveToNewList_category_required_bug (u : String)
    (dto : MoveToNewListDto) (db : DB) :
    ((moveToNewList u dto db).snd = db) ∧
    ((moveToNewList u dto db).fst
        = Except.error (Err.notFound "No forgotten items found") ∨
      (moveToNewList u dto db).fst
        = Except.error (Err.internal "Failed to move items to new list")) ∧
    ((moveToNewList "u1" { itemIds := [50], newListName := "Moved" }
        forgottenDB).fst
      = Except.error (Err.internal "Failed to move items to new list")) := by
  refine ⟨?_, ?_, by rfl⟩
  · unfold moveToNewList
    dsimp only
    split
    · rfl
    · rfl
  · unfold moveToNewList
    dsimp only
    split
    · exact Or.inl rfl
    · exact Or.inr rfl

/-- C7: dismiss with a listId deletes exactly the caller's forgotten
items with that origin list id; dismiss with a non-empty itemIds set
deletes exactly the caller's items in that set; an empty match is a
no-op, not an error; and with neither selector (or an empty itemIds
array) the call is rejected with BadRequest and nothing is deleted. -/
theorem dismiss_selector_semantics (u : String) (db : DB) :
    (∀ (lid : Nat) (itemIds : Option (List Nat)),
      (dismissForgottenItems u { listId := some lid, itemIds := itemIds }
        db).fst = Except.ok () ∧
      (dismissForgottenItems u { listId := some lid, itemIds := itemIds }
        db).snd.forgottenItems
        = db.forgottenItems.filter
            (fun f => !(f.userId == u && f.originalListId == lid))) ∧
    (∀ ids : List Nat, ids ≠ [] →
      (dismissForgottenItems u { listId := none, itemIds := some ids }
        db).fst = Except.ok () ∧
      (dismissForgottenItems u { listId := none, itemIds := some ids }
        db).snd.forgottenItems
        = db.forgottenItems.filter
            (fun f => !(f.userId == u && ids.contains f.id))) ∧
    (∀ (lid : Nat) (itemIds : Option (List Nat)),
      (∀ f ∈ db.forgottenItems,
        ¬(f.userId = u ∧ f.originalListId = lid)) →
      (dismissForgottenItems u { listId := some lid, itemIds := itemIds }
        db).snd = db) ∧
    ((dismissForgottenItems u { listId := none, itemIds := none } db).fst
        = Except.error
            (Err.badRequest "Either listId or itemIds must be provided") ∧
      (dismissForgottenItems u { listId := none, itemIds := none } db).snd
        = db) ∧
    ((dismissForgottenItems u { listId := none, itemIds := some [] } db).fst
        = Except.error
            (Err.badRequest "Either listId or itemIds must be provided") ∧
      (dismissForgottenItems u { listId := none, itemIds := some [] } db).snd
        = db) := by
  refine ⟨fun lid itemIds => ⟨rfl, rfl⟩, ?_, ?_, ⟨rfl, rfl⟩, ⟨rfl, rfl⟩⟩
  · intro ids hne
    have hlen : ids.length > 0 := List.length_pos.mpr hne
    unfold dismissForgottenItems
    dsimp only
    rw [if_pos hlen]
    exact ⟨rfl, rfl⟩
  · intro lid itemIds hno
    unfold dismissForgottenItems
    dsimp only
    have hfil : db.forgottenItems.filter
        (fun f => !(f.userId == u && f.originalListId == lid))
        = db.forgottenItems := by
      refine List.filter_eq_self.mpr ?_
      intro f hf
      have hnof := hno f hf
      cases hq : (f.userId == u && f.originalListId == lid) with
      | false => rfl
      | true =>
        exfalso
        simp only [Bool.and_eq_true, beq_iff_eq] at hq
        exact hnof hq
    rw [hfil]

/-- C8: `addItem` on an archived list fails with the
archived-list domain error (BadRequest class) and leaves the store
exactly as it was. -/
theorem addItem_archived_rejected (i : Nat) (u : String)
    (dto : CreateItemDto) (db : DB) (l : ListRec)
    (hfind : db.lists.find? (fun x => x.id == i && x.userId == u) = some l)
    (harch : l.isArchived = true) :
    (addItem i u dto db).fst
      = Except.error (Err.badRequest "Cannot add items to an archived list") ∧
    (addItem i u dto db).snd = db := by
  unfold addItem
  rw [hfind]
  dsimp only
  rw [if_pos harch]
  exact ⟨rfl, rfl⟩

/-- Witness for C8 at the concrete store `archivedDB`. -/
theorem addItem_archived_rejected_witness :
    (archivedDB.lists.find? (fun x => x.id == 2 && x.userId == "u1")
        = some archivedList ∧
      archivedList.isArchived = true) ∧
    ((addItem 2 "u1" { name := "X", quantity := none, notes := none }
        archivedDB).fst
      = Except.error (Err.badRequest "Cannot add items to an archived list") ∧
    (addItem 2 "u1" { name := "X", quantity := none, notes := none }
        archivedDB).snd = archivedDB) :=
  ⟨⟨by decide, rfl⟩,
   addItem_archived_rejected 2 "u1"
     { name := "X", quantity := none, notes := none } archivedDB
     archivedList (by decide) rfl⟩

theorem eraseP_append_cons {α : Type} {p : α → Bool} :
    ∀ {as : List α} (x : α) (bs : List α), (∀ a ∈ as, p a = false) →
      p x = true → (as ++ x :: bs).eraseP p = as ++ bs := by
  intro as
  induction as with
  | nil => intro x bs _ hx; simpa using List.eraseP_cons_of_pos hx
  | cons a as ih =>
    intro x bs ha hx
    have ha0 := ha a (List.mem_cons_self a as)
    rw [List.cons_append, List.eraseP_cons_of_neg (by simp [ha0]),
        ih x bs (fun a2 h2 => ha a2 (List.mem_cons_of_mem a h2)) hx,
        List.cons_append]

/-- C9: deleteCategory fails with Conflict and removes nothing whenever
at least one of the owner's lists carries the category's name, and
otherwise succeeds and removes the category record. -/
theorem deleteCategory_conflict_guard (u : String) (cid : Nat) (db : DB)
    (cat : Category)
    (hfind : db.categories.find? (fun c => c.id == cid && c.userId == u)
      = some cat)
    (hndc : (db.categories.map Category.id).Nodup) :
    ((∃ l ∈ db.lists, l.userId = u ∧ l.category = some cat.name) →
      (deleteCategory u cid db).fst
        = Except.error (Err.conflict "Cannot delete category: it is in use") ∧
      (deleteCategory u cid db).snd = db) ∧
    ((∀ l ∈ db.lists, ¬(l.userId = u ∧ l.category = some cat.name)) →
      (deleteCategory u cid db).fst = Except.ok () ∧
      (deleteCategory u cid db).snd.categories
        = db.categories.eraseP (fun c => c.id == cid && c.userId == u) ∧
      cat ∉ (deleteCategory u cid db).snd.categories ∧
      (deleteCategory u cid db).snd.lists = db.lists) := by
  have hgc : getCategoryById u cid db = Except.ok cat := by
    unfold getCategoryById
    rw [hfind]
  constructor
  · intro ⟨l, hl, hlu, hlc⟩
    have hmem : l ∈ db.lists.filter
        (fun l => l.userId == u && l.category == some cat.name) :=
      List.mem_filter.mpr ⟨hl, by simp [hlu, hlc]⟩
    have hpos : (db.lists.filter
        (fun l => l.userId == u && l.category == some cat.name)).length > 0 :=
      List.length_pos.mpr (List.ne_nil_of_mem hmem)
    unfold deleteCategory
    rw [hgc]
    dsimp only
    rw [if_pos hpos]
    exact ⟨rfl, rfl⟩
  · intro hno
    have hnil : db.lists.filter
        (fun l => l.userId == u && l.category == some cat.name) = [] := by
      refine List.filter_eq_nil_iff.mpr ?_
      intro l hl
      have := hno l hl
      simp only [Bool.and_eq_true, beq_iff_eq]
      intro hcontra
      exact this hcontra
    have hlen : ¬ (db.lists.filter
        (fun l => l.userId == u && l.category == some cat.name)).length > 0 := by
      rw [hnil]
      simp
    unfold deleteCategory
    rw [hgc]
    dsimp only
    rw [if_neg hlen]
    refine ⟨rfl, rfl, ?_, rfl⟩
    obtain ⟨as, bs, hsplit, hasp, hp⟩ := find?_eq_some_split hfind
    show cat ∉ db.categories.eraseP (fun c => c.id == cid && c.userId == u)
    rw [hsplit, eraseP_append_cons cat bs hasp hp]
    intro hmem
    rcases List.mem_append.mp hmem with hmas | hmbs
    · have := hasp cat hmas
      rw [hp] at this
      exact absurd this (by simp)
    · have hnd2 := hndc
      rw [hsplit, List.map_append, List.map_cons] at hnd2
      have h3 := List.nodup_append.mp hnd2
      exact (List.nodup_cons.mp h3.2.1).1
        (List.mem_map_of_mem Category.id hmbs)

/-- `acceptShare` never writes `sharedWithContact`: every share in the
post-state carries the contact of some pre-state share. -/
theorem acceptShare_preserves_contact (t2 u3 : String) (now3 : Nat)
    (db2 : DB) :
    ∀ s ∈ (acceptShare t2 u3 now3 db2).snd.shares,
      ∃ s0 ∈ db2.shares, s.sharedWithContact = s0.sharedWithContact := by
  unfold acceptShare
  cases h : db2.invitations.find?
      (fun i => i.invitationToken == t2 &&
        i.status == InvitationStatus.PENDING &&
        decide (now3 < i.expiresAt)) with
  | none => intro s hs; exact ⟨s, hs, rfl⟩
  | some inv0 =>
    dsimp only
    cases h2 : db2.shares.find?
        (fun s => s.invitationToken == t2 &&
          s.status == ShareStatus.PENDING) with
    | none => intro s hs; exact ⟨s, hs, rfl⟩
    | some sh0 =>
      dsimp only
      intro s hs
      rcases mem_updateFirst_elim hs with hmem | ⟨x, hx, hpx, rfl⟩
      · exact ⟨s, hmem, rfl⟩
      · exact ⟨x, hx, rfl⟩

/-- C10: revoking an ACCEPTED share while another active share exists
for the same list leaves the recipient in the list's shared-with set:
the per-share `$pull` keys on `sharedWithContact`, which `acceptShare`
never populates, so it is skipped, and the wholesale clear only fires
when no active share remains.  The revoked share itself is deactivated
with status EXPIRED. -/
theorem revokeShare_keeps_recipient (sid : Nat) (u : String) (db : DB)
    (sh s2 : SharedList)
    (hfind : db.shares.find? (fun x => x.id == sid) = some sh)
    (hown : sh.ownerId = u)
    (hcontact : sh.sharedWithContact = none)
    (hs2 : s2 ∈ db.shares) (hne : s2.id ≠ sid)
    (hs2list : s2.listId = sh.listId) (hs2act : s2.isActive = true) :
    (revokeShare sid u db).fst = Except.ok () ∧
    (revokeShare sid u db).snd.lists = db.lists ∧
    (∀ (r : String) (lst : ListRec),
      db.lists.find? (fun l => l.id == sh.listId) = some lst →
      r ∈ lst.sharedWith →
      ∃ lst2, (revokeShare sid u db).snd.lists.find?
          (fun l => l.id == sh.listId) = some lst2 ∧ r ∈ lst2.sharedWith) ∧
    ((revokeShare sid u db).snd.shares.find? (fun x => x.id == sid)
      = some { sh with isActive := false, status := ShareStatus.EXPIRED }) ∧
    (∀ (t2 u3 : String) (now3 : Nat) (db2 : DB),
      ∀ s ∈ (acceptShare t2 u3 now3 db2).snd.shares,
        ∃ s0 ∈ db2.shares, s.sharedWithContact = s0.sharedWithContact) := by
  have hbo : (sh.ownerId == u) = true := by simp [hown]
  have hshfind : (updateFirst (fun s => s.id == sid)
      (fun s => { s with isActive := false, status := ShareStatus.EXPIRED })
      db.shares).find? (fun x => x.id == sid)
      = some { sh with isActive := false, status := ShareStatus.EXPIRED } := by
    have hfs2 := List.find?_some hfind
    exact find?_updateFirst_strong hfind (fun y hy => hy) hfs2
  unfold revokeShare
  rw [hfind]
  try dsimp only
  rw [if_pos hbo]
  try dsimp only
  exact ⟨rfl, rfl, fun r lst hlst hr => ⟨lst, hlst, hr⟩, hshfind,
    acceptShare_preserves_contact⟩

/-- Witness for C10 at the concrete store `revokeDB`: revoking share 41
(list 1, contact never set) while share 42 stays active leaves "u2" in
the list's shared-with set. -/
theorem revokeShare_keeps_recipient_witness :
    (revokeDB.shares.find? (fun x => x.id == 41) = some acceptedShare ∧
      acceptedShare.ownerId = "u1" ∧
      acceptedShare.sharedWithContact = none ∧
      secondShare ∈ revokeDB.shares ∧ secondShare.id ≠ 41 ∧
      secondShare.listId = acceptedShare.listId ∧
      secondShare.isActive = true) ∧
    ((revokeShare 41 "u1" revokeDB).fst = Except.ok () ∧
      (revokeShare 41 "u1" revokeDB).snd.lists = revokeDB.lists ∧
      (∀ (r : String) (lst : ListRec),
        revokeDB.lists.find? (fun l => l.id == acceptedShare.listId)
          = some lst →
        r ∈ lst.sharedWith →
        ∃ lst2, (revokeShare 41 "u1" revokeDB).snd.lists.find?
            (fun l => l.id == acceptedShare.listId) = some lst2 ∧
          r ∈ lst2.sharedWith) ∧
      ((revokeShare 41 "u1" revokeDB).snd.shares.find?
          (fun x => x.id == 41)
        = some { acceptedShare with isActive := false,
                                    status := ShareStatus.EXPIRED }) ∧
      (∀ (t2 u3 : String) (now3 : Nat) (db2 : DB),
        ∀ s ∈ (acceptShare t2 u3 now3 db2).snd.shares,
          ∃ s0 ∈ db2.shares, s.sharedWithContact = s0.sharedWithContact)) :=
  ⟨⟨by decide, rfl, rfl, by decide, by decide, rfl, rfl⟩,
   revokeShare_keeps_recipient 41 "u1" revokeDB acceptedShare secondShare
     (by decide) rfl rfl (by decide) (by decide) rfl rfl⟩

/-- Witness for C7 at the concrete store `forgottenDB`: dismissing by
origin list 1 removes exactly u1's matching items; dismissing ids
[50, 52] removes exactly u1's items in the set; an unmatched listId is
a no-op; no selector is rejected. -/
theorem dismiss_selector_semantics_witness :
    ((dismissForgottenItems "u1" { listId := some 1, itemIds := none }
        forgottenDB).fst = Except.ok () ∧
      (dismissForgottenItems "u1" { listId := some 1, itemIds := none }
        forgottenDB).snd.forgottenItems
        = forgottenDB.forgottenItems.filter
            (fun f => !(f.userId == "u1" && f.originalListId == 1))) ∧
    ((dismissForgottenItems "u1" { listId := none, itemIds := some [50, 52] }
        forgottenDB).fst = Except.ok () ∧
      (dismissForgottenItems "u1" { listId := none, itemIds := some [50, 52] }
        forgottenDB).snd.forgottenItems
        = forgottenDB.forgottenItems.filter
            (fun f => !(f.userId == "u1" && [50, 52].contains f.id))) ∧
    ((dismissForgottenItems "u1" { listId := some 99, itemIds := none }
        forgottenDB).snd = forgottenDB) ∧
    ((dismissForgottenItems "u1" { listId := none, itemIds := none }
        forgottenDB).fst
      = Except.error
          (Err.badRequest "Either listId or itemIds must be provided")) :=
  ⟨(dismiss_selector_semantics "u1" forgottenDB).1 1 none,
   (dismiss_selector_semantics "u1" forgottenDB).2.1 [50, 52] (by decide),
   (dismiss_selector_semantics "u1" forgottenDB).2.2.1 99 none (by decide),
   ((dismiss_selector_semantics "u1" forgottenDB).2.2.2.1).1⟩

/-- Witness for C9 at the concrete store `categoryDB`: deleting the
in-use "Shopping" category conflicts; deleting the unused "Work"
category removes it. -/
theorem deleteCategory_conflict_guard_witness :
    ((categoryDB.categories.find? (fun c => c.id == 60 && c.userId == "u1")
        = some catShopping ∧
      (categoryDB.categories.map Category.id).Nodup) ∧
    ((deleteCategory "u1" 60 categoryDB).fst
        = Except.error (Err.conflict "Cannot delete category: it is in use") ∧
      (deleteCategory "u1" 60 categoryDB).snd = categoryDB) ∧
    ((deleteCategory "u1" 61 categoryDB).fst = Except.ok () ∧
      catWork ∉ (deleteCategory "u1" 61 categoryDB).snd.categories)) :=
  ⟨⟨by decide, by decide⟩,
   (deleteCategory_conflict_guard "u1" 60 categoryDB catShopping (by decide)
       (by decide)).1 ⟨expiredList, by decide, rfl, rfl⟩,
   ⟨((deleteCategory_conflict_guard "u1" 61 categoryDB catWork (by decide)
       (by decide)).2 (by decide)).1,
    ((deleteCategory_conflict_guard "u1" 61 categoryDB catWork (by decide)
       (by decide)).2 (by decide)).2.2.1⟩⟩

end Lyst
